import Mathlib

/-!
Verification of the export-strategy engine of a Figma-to-PDF plugin
(`src/code.js`).  The relevant parts of the program are shallowly embedded:
scene-graph nodes become an inductive tree, the classifier / segment planner /
scene mutator / validator become executable Lean functions translated from the
source, and the asynchronous host primitives (`exportAsync`,
`getRangeBounds`, parent pointers) are supplied as explicit parameters.
-/

/-! ## Data model: scene-graph nodes -/

/-- A visual effect attached to a node (`node.effects[i]`).  The `visible`
flag is optional in the host API; the source treats a missing flag as
visible (`effect.visible !== false`). -/
structure Effect where
  type : String
  visible : Option Bool
deriving DecidableEq, Repr

/-- A paint descriptor (`fills[i]` / `strokes[i]`).  Only the `visible`
flag is inspected by the program; it is optional (`paint.visible !== false`
treats a missing flag as visible). -/
structure Paint where
  visible : Option Bool
deriving DecidableEq, Repr

/-- The value of a node's `fills` / `strokes` property.  `absent` models a
node without the property (`'fills' in node` is false), `mixed` models the
`figma.mixed` sentinel, and `paints` models an array whose entries may be
null (the source guards entries with `paint && ...`). -/
inductive PaintProp where
  | absent
  | mixed
  | paints (items : List (Option Paint))
deriving DecidableEq, Repr

/-- The per-node attributes inspected by the export engine.  `blendMode` is
optional (`node.blendMode && ...` short-circuits on a missing value);
`effects` missing in the host is indistinguishable from an empty array in
every check the source performs (`node.effects && node.effects.length > 0`),
so it is modelled as a plain list. -/
structure NodeData where
  id : Nat
  type : String
  name : String
  visible : Bool
  effects : List Effect
  blendMode : Option String
  isMask : Bool
  fills : PaintProp
  strokes : PaintProp
deriving DecidableEq, Repr

/-- A scene-graph node: its own attributes plus its ordered children
(`node.children`, empty for leaf nodes). -/
inductive Node where
  | mk : NodeData → List Node → Node

/-- The attribute record of a node. -/
def Node.data : Node → NodeData
  | .mk d _ => d

/-- The ordered children of a node. -/
def Node.children : Node → List Node
  | .mk _ cs => cs

/-! ## Rasterization classifier (`src/code.js` lines 339-403) -/

/-- Effects that must be rasterized (`MUST_RASTERIZE_EFFECTS`). -/
def MUST_RASTERIZE_EFFECTS : List String :=
  ["LAYER_BLUR", "BACKGROUND_BLUR"]

/-- Effects that should be rasterized for best quality
(`SHOULD_RASTERIZE_EFFECTS`). -/
def SHOULD_RASTERIZE_EFFECTS : List String :=
  ["DROP_SHADOW", "INNER_SHADOW"]

/-- Blend modes the source lists as problematic in PDF
(`PROBLEMATIC_BLEND_MODES`). -/
def PROBLEMATIC_BLEND_MODES : List String :=
  ["MULTIPLY", "SCREEN", "OVERLAY", "DARKEN", "LIGHTEN",
   "COLOR_DODGE", "COLOR_BURN", "HARD_LIGHT", "SOFT_LIGHT",
   "DIFFERENCE", "EXCLUSION", "HUE", "SATURATION", "COLOR",
   "LUMINOSITY", "PLUS_DARKER", "PLUS_LIGHTER"]

/-- `RASTERIZE_EFFECTS = MUST_RASTERIZE_EFFECTS.concat(SHOULD_RASTERIZE_EFFECTS)`. -/
def RASTERIZE_EFFECTS : List String :=
  MUST_RASTERIZE_EFFECTS ++ SHOULD_RASTERIZE_EFFECTS

/-- The visibility test the source applies to an effect:
`effect.visible !== false`. -/
def effectVisible (e : Effect) : Bool :=
  !(e.visible == some false)

/-- `hasVisiblePaints(paints)`: false unless the value is an array with at
least one non-null entry whose `visible` flag is not explicitly false. -/
def hasVisiblePaints : PaintProp → Bool
  | .paints items =>
      items.any fun p =>
        match p with
        | some q => !(q.visible == some false)
        | none => false
  | _ => false

/-- `nodeHasRenderableSelf(node)`: TEXT nodes, or nodes with a visible fill
or a visible stroke. -/
def nodeHasRenderableSelf (n : NodeData) : Bool :=
  n.type == "TEXT" || hasVisiblePaints n.fills || hasVisiblePaints n.strokes

/-- `nodeNeedsRaster(node)` (`src/code.js` lines 385-403): a visible effect
in `RASTERIZE_EFFECTS`, a problematic blend mode, or a mask with a
non-empty effects array. -/
def nodeNeedsRaster (n : NodeData) : Bool :=
  (n.effects.any fun e => effectVisible e && RASTERIZE_EFFECTS.contains e.type)
  || (match n.blendMode with
      | some bm => PROBLEMATIC_BLEND_MODES.contains bm
      | none => false)
  || (n.isMask && !n.effects.isEmpty)

/-! ## Claim C2: spec-side classifier predicate

The claim states `nodeNeedsRaster` returns true iff a visible must-rasterize
effect, a visible should-rasterize effect, a non-default blend mode, or a
mask carrying at least one visible effect is present.  The predicate below
is written from the claim's words, to be compared with `nodeNeedsRaster`. -/

/-- All blend-mode values of the host API.  `NORMAL` is the normal
compositing mode and `PASS_THROUGH` the default for container nodes; the
other seventeen are exactly `PROBLEMATIC_BLEND_MODES`. -/
def FIGMA_BLEND_MODES : List String :=
  "NORMAL" :: "PASS_THROUGH" :: PROBLEMATIC_BLEND_MODES

/-- The classifier predicate as the claim states it: note the last clause
requires a visible effect on a mask, and the blend clause reads "any value
other than the default/normal compositing mode". -/
def claimNeedsRaster (n : NodeData) : Bool :=
  (n.effects.any fun e =>
    effectVisible e && MUST_RASTERIZE_EFFECTS.contains e.type)
  || (n.effects.any fun e =>
    effectVisible e && SHOULD_RASTERIZE_EFFECTS.contains e.type)
  || (match n.blendMode with
      | some bm => !(bm == "NORMAL") && !(bm == "PASS_THROUGH")
      | none => false)
  || (n.isMask && n.effects.any effectVisible)

/-- The claim's predicate with the mask clause amended to what the source
checks: a mask with at least one effect, visible or not. -/
def amendedNeedsRaster (n : NodeData) : Bool :=
  (n.effects.any fun e =>
    effectVisible e && MUST_RASTERIZE_EFFECTS.contains e.type)
  || (n.effects.any fun e =>
    effectVisible e && SHOULD_RASTERIZE_EFFECTS.contains e.type)
  || (match n.blendMode with
      | some bm => !(bm == "NORMAL") && !(bm == "PASS_THROUGH")
      | none => false)
  || (n.isMask && !n.effects.isEmpty)

/-- A mask node whose only effect is an invisible drop shadow: the source
rasterizes it, the claim's predicate does not. -/
def c2CexNode : NodeData :=
  { id := 7, type := "RECTANGLE", name := "masked", visible := true,
    effects := [{ type := "DROP_SHADOW", visible := some false }],
    blendMode := none, isMask := true,
    fills := .paints [some { visible := some true }], strokes := .absent }

/-! ## Subtree collection (`src/code.js` lines 405-437) -/

mutual
/-- Number of nodes in a subtree (termination measure for the worklist
embedding below). -/
def nodeSize : Node → Nat
  | .mk _ cs => 1 + nodeListSize cs
def nodeListSize : List Node → Nat
  | [] => 0
  | c :: cs => nodeSize c + nodeListSize cs
end

mutual
/-- `collectSubtreeNodes(node)`: the pre-order listing of a subtree.  The
source uses an explicit stack, popping a node and pushing its children in
reverse so they are visited first-to-last; `collectSubtreeLoop` below embeds
that loop verbatim and is proven equal to this recursive pre-order. -/
def collectSubtreeNodes : Node → List Node
  | .mk d cs => .mk d cs :: collectSubtreeList cs
def collectSubtreeList : List Node → List Node
  | [] => []
  | c :: cs => collectSubtreeNodes c ++ collectSubtreeList cs
end

/-- The worklist loop of `collectSubtreeNodes` / `collectAllNodes`: the
head of `stack` is the stack top (the source pushes children in reverse and
pops from the end, which visits them first-to-last), and `acc` holds the
output in reverse. -/
def collectSubtreeLoop (stack : List Node) (acc : List Node) : List Node :=
  match stack with
  | [] => acc.reverse
  | .mk d cs :: rest => collectSubtreeLoop (cs ++ rest) (.mk d cs :: acc)
termination_by nodeListSize stack
decreasing_by
  have h : ∀ a b : List Node, nodeListSize (a ++ b) = nodeListSize a + nodeListSize b := by
    intro a
    induction a with
    | nil => intro b; simp [nodeListSize]
    | cons c cs ih =>
      intro b
      show nodeListSize (c :: (cs ++ b)) = nodeListSize (c :: cs) + nodeListSize b
      simp only [nodeListSize]
      rw [ih]
      omega
  simp only [nodeListSize, nodeSize, h]
  omega

/-- `collectAllNodes(root)`: same pre-order walk as `collectSubtreeNodes`
(the source duplicates the loop, adding only a null-root guard that cannot
fire in this embedding). -/
def collectAllNodes (root : Node) : List Node :=
  collectSubtreeNodes root

/-- The ids of a subtree in pre-order. -/
def subtreeIds (n : Node) : List Nat :=
  (collectSubtreeNodes n).map fun m => m.data.id

/-! ## Segment planner (`src/code.js` lines 452-491) -/

/-- One planned segment: `{type: 'vector'|'raster', nodes}`. -/
structure Segment where
  type : String
  nodes : List Node

/-- The planner's traversal state: the segments flushed so far and the
currently open vector run (`currentVectorNodes`). -/
structure PlanState where
  segments : List Segment
  current : List Node

/-- Order-preserving de-duplication of a node run keyed by node id:
`Array.from(new Set(currentVectorNodes))` de-duplicates by object identity
while keeping insertion order, and within one document node identity
coincides with id equality. -/
def dedupByIdAux (seen : List Nat) : List Node → List Node
  | [] => []
  | n :: rest =>
      if seen.contains n.data.id then dedupByIdAux seen rest
      else n :: dedupByIdAux (n.data.id :: seen) rest

/-- De-duplicate a vector run, keeping first occurrences in order. -/
def dedupById (l : List Node) : List Node :=
  dedupByIdAux [] l

/-- `flushVector()`: close the open vector run into a segment, if non-empty. -/
def flushVector (st : PlanState) : PlanState :=
  if st.current.isEmpty then st
  else { segments := st.segments ++ [{ type := "vector", nodes := dedupById st.current }],
         current := [] }

mutual
/-- `visit(node)` of `buildFrameSegments`: invisible nodes are skipped with
their subtrees; a raster-mandating node flushes the vector run and emits its
whole subtree as one raster segment without visiting its children; otherwise
a renderable node joins the open vector run and children are visited. -/
def visitNode (st : PlanState) : Node → PlanState
  | .mk d cs =>
      if d.visible = false then st
      else if nodeNeedsRaster d then
        let st1 := flushVector st
        { segments := st1.segments ++
            [{ type := "raster", nodes := collectSubtreeNodes (.mk d cs) }],
          current := st1.current }
      else
        let st1 := if nodeHasRenderableSelf d
          then { st with current := st.current ++ [Node.mk d cs] } else st
        visitList st1 cs
def visitList (st : PlanState) : List Node → PlanState
  | [] => st
  | c :: cs => visitList (visitNode st c) cs
end

/-- `buildFrameSegments(frame)`: visit the frame's children in order, then
flush any open vector run. -/
def buildFrameSegments (frame : Node) : List Segment :=
  (flushVector (visitList { segments := [], current := [] } frame.children)).segments

mutual
/-- The ids a single node contributes to the planner's output: nothing when
invisible, its whole subtree when raster-mandating, else itself (when
renderable) followed by its children's contributions.  This is the
"reachable by the planning traversal" set of the segment-coverage claim. -/
def plannedNodeIds : Node → List Nat
  | .mk d cs =>
      if d.visible = false then []
      else if nodeNeedsRaster d then subtreeIds (.mk d cs)
      else (if nodeHasRenderableSelf d then [d.id] else []) ++ plannedListIds cs
def plannedListIds : List Node → List Nat
  | [] => []
  | c :: cs => plannedNodeIds c ++ plannedListIds cs
end

/-- The ids reachable by planning a frame (the frame's children are the
traversal roots). -/
def plannedFrameIds (frame : Node) : List Nat :=
  plannedListIds frame.children

/-! ## Layer analyzer (`src/code.js` lines 568-683) -/

/-- One diagnostic recorded for a layer (the source pushes plain objects
with a `type` discriminator and effect/mode specific fields). -/
inductive LayerIssue where
  | criticalEffect (effect : String) (reason : String)
  | shadowEffect (effect : String) (reason : String)
  | blendIssue (mode : String) (reason : String)
  | maskedEffects (reason : String)
deriving DecidableEq, Repr

/-- One entry of `results.details`: a raster-classified layer carries
`issues`, a vector-classified layer with minor issues carries `warnings`
(pure vector layers record nothing). -/
inductive LayerDetail where
  | rasterLayer (name ty : String) (issues : List LayerIssue) (depth : Nat)
  | vectorWarned (name ty : String) (warnings : List LayerIssue) (depth : Nat)
deriving DecidableEq, Repr

/-- The analyzer's accumulated result record. -/
structure LayerAnalysis where
  totalLayers : Nat
  vectorLayers : Nat
  rasterLayers : Nat
  details : List LayerDetail
  hasCriticalEffects : Bool
  frameStrategy : String
deriving DecidableEq, Repr

/-- The analyzer's initial result record. -/
def initialAnalysis : LayerAnalysis :=
  { totalLayers := 0, vectorLayers := 0, rasterLayers := 0, details := [],
    hasCriticalEffects := false, frameStrategy := "vector" }

/-- Outcome of the per-layer effect loop: whether the layer must be
rasterized so far, whether a critical (must-rasterize) effect was seen, and
the issues pushed in loop order. -/
structure EffectScan where
  needsRaster : Bool
  critical : Bool
  issues : List LayerIssue
deriving DecidableEq, Repr

/-- The effect loop of `analyzeFrameLayers`: a visible must-rasterize effect
forces rasterization and marks the analysis critical; a visible
should-rasterize effect only records a warning issue. -/
def scanEffects (effects : List Effect) : EffectScan :=
  effects.foldl (fun acc e =>
    if effectVisible e then
      if MUST_RASTERIZE_EFFECTS.contains e.type then
        { needsRaster := true, critical := true,
          issues := acc.issues ++ [.criticalEffect e.type ("Cannot be represented as vector")] }
      else if SHOULD_RASTERIZE_EFFECTS.contains e.type then
        { acc with issues := acc.issues ++ [.shadowEffect e.type ("Better quality when rasterized")] }
      else acc
    else acc)
    { needsRaster := false, critical := false, issues := [] }

/-- The per-layer body of `analyzeFrameLayers`: effect loop, then the blend
mode check, then the mask-with-effects check.  Returns (layerNeedsRaster,
critical-effect flag, layerIssues). -/
def analyzeNodeSelf (d : NodeData) : Bool × Bool × List LayerIssue :=
  let es := scanEffects d.effects
  let afterBlend :=
    match d.blendMode with
    | some bm =>
        if PROBLEMATIC_BLEND_MODES.contains bm then
          (true, es.issues ++ [LayerIssue.blendIssue bm ("Not fully supported in PDF")])
        else (es.needsRaster, es.issues)
    | none => (es.needsRaster, es.issues)
  let afterMask :=
    if d.isMask && !d.effects.isEmpty then
      (true, afterBlend.2 ++ [LayerIssue.maskedEffects ("Mask + effects combination")])
    else afterBlend
  (afterMask.1, es.critical, afterMask.2)

/-- Counting one node into the analysis: DOCUMENT/PAGE pseudo-nodes are
excluded; a raster-mandating layer increments `rasterLayers` and records its
issues, a layer with only minor issues increments `vectorLayers` with
warnings, and a clean layer increments `vectorLayers` silently. -/
def countNodeSelf (d : NodeData) (depth : Nat) (acc : LayerAnalysis) : LayerAnalysis :=
  if d.type == "DOCUMENT" || d.type == "PAGE" then acc
  else
    let scan := analyzeNodeSelf d
    let acc1 := { acc with totalLayers := acc.totalLayers + 1,
                           hasCriticalEffects := acc.hasCriticalEffects || scan.2.1 }
    if scan.1 then
      { acc1 with rasterLayers := acc1.rasterLayers + 1,
                  details := acc1.details ++ [.rasterLayer d.name d.type scan.2.2 depth] }
    else if !scan.2.2.isEmpty then
      { acc1 with vectorLayers := acc1.vectorLayers + 1,
                  details := acc1.details ++ [.vectorWarned d.name d.type scan.2.2 depth] }
    else
      { acc1 with vectorLayers := acc1.vectorLayers + 1 }

mutual
/-- The recursive traversal of `analyzeFrameLayers`: count the node itself,
then recurse into all children with `depth + 1` (the `depth === 0` strategy
assignment in the source can only fire at the root and is modelled in the
wrapper `analyzeFrameLayers`). -/
def analyzeGo (n : Node) (depth : Nat) (acc : LayerAnalysis) : LayerAnalysis :=
  match n with
  | .mk d cs => analyzeGoList cs (depth + 1) (countNodeSelf d depth acc)
def analyzeGoList (l : List Node) (depth : Nat) (acc : LayerAnalysis) : LayerAnalysis :=
  match l with
  | [] => acc
  | c :: cs => analyzeGoList cs depth (analyzeGo c depth acc)
end

/-- `analyzeFrameLayers(node)`: run the traversal from depth 0, then derive
`frameStrategy` from the counts (`rasterLayers === 0` gives vector,
`vectorLayers === 0` gives raster, else hybrid). -/
def analyzeFrameLayers (n : Node) : LayerAnalysis :=
  let r := analyzeGo n 0 initialAnalysis
  { r with frameStrategy :=
      if r.rasterLayers == 0 then "vector"
      else if r.vectorLayers == 0 then "raster"
      else "hybrid" }

/-! ## Export strategy decision (`src/code.js` lines 719-784) -/

/-- The layer statistics attached to a decision. -/
structure DecisionStats where
  vectorLayers : Nat
  rasterLayers : Nat
  total : Nat
deriving DecidableEq, Repr

/-- An issue record of the legacy `scanForProblematicEffects` format,
consumed by the fallback branch of `determineExportStrategy`. -/
structure OldIssue where
  nodeName : String
  nodeType : String
  issue : String
  severity : String
  reason : String
deriving DecidableEq, Repr

/-- The value returned by `determineExportStrategy`. -/
structure ExportDecision where
  strategy : String
  reason : String
  stats : Option DecisionStats
  issues : Option (List OldIssue)
deriving DecidableEq, Repr

/-- `determineExportStrategy(issues, layerAnalysis)`: with a layer analysis,
vector frames export as vector, raster frames as png, hybrid frames as png
when critical effects are present and as vector-with-fallback otherwise;
without an analysis the legacy severity counting applies. -/
def determineExportStrategy (issues : List OldIssue)
    (layerAnalysis : Option LayerAnalysis) : ExportDecision :=
  match layerAnalysis with
  | some la =>
      let stats : Option DecisionStats :=
        some { vectorLayers := la.vectorLayers, rasterLayers := la.rasterLayers,
               total := la.vectorLayers + la.rasterLayers }
      if la.frameStrategy == "vector" then
        { strategy := "vector",
          reason := "100% vector safe (" ++ toString la.vectorLayers ++ " layers)",
          stats := stats, issues := none }
      else if la.frameStrategy == "raster" then
        { strategy := "png",
          reason := "All layers need rasterization (" ++ toString la.rasterLayers ++ " layers)",
          stats := stats, issues := none }
      else
        if la.hasCriticalEffects then
          { strategy := "png",
            reason := "Hybrid frame with critical effects (" ++ toString la.vectorLayers ++
              " vector, " ++ toString la.rasterLayers ++ " raster) - using high-quality PNG",
            stats := stats, issues := none }
        else
          { strategy := "vector-with-fallback",
            reason := "Hybrid frame (" ++ toString la.vectorLayers ++ " vector, " ++
              toString la.rasterLayers ++ " raster) - attempting vector with PNG fallback",
            stats := stats, issues := none }
  | none =>
      if issues.isEmpty then
        { strategy := "vector", reason := "No problematic effects detected",
          stats := none, issues := none }
      else
        let high := (issues.filter fun i => i.severity == "high").length
        let med := (issues.filter fun i => i.severity == "medium").length
        if high > 0 then
          { strategy := "png",
            reason := toString high ++ " critical issue(s) requiring rasterization",
            stats := none, issues := some issues }
        else if med ≥ 3 then
          { strategy := "png",
            reason := toString med ++ " issues - better quality with PNG",
            stats := none, issues := some issues }
        else
          { strategy := "vector-with-fallback",
            reason := toString issues.length ++ " minor issue(s) - attempting vector with PNG fallback",
            stats := none, issues := some issues }

/-! ## Scene mutator (`src/code.js` lines 493-563)

The source mutates live scene nodes in place.  The mutable world is
modelled as the flat list of node records produced by `collectAllNodes`;
each operation maps the list to its post-mutation value.  Parent pointers
(used by `getAncestorChain` to grow the visibility set) live in the host
scene graph, so the ancestor-derived part of the show set is passed in as
an explicit id list; the claims below hold for every such list. -/

/-- The mutable per-node state touched by the mutator: identity plus the
three written properties. -/
structure MutNode where
  id : Nat
  visible : Bool
  fills : PaintProp
  strokes : PaintProp
deriving DecidableEq, Repr

/-- The mutable view of a scene node. -/
def toMutNode (n : Node) : MutNode :=
  { id := n.data.id, visible := n.data.visible,
    fills := n.data.fills, strokes := n.data.strokes }

/-- The snapshot taken by `captureNodeState`: three id-keyed maps.  A
JavaScript `Map` is modelled as an association list where `set` prepends
(so `List.lookup`, which returns the first hit, sees the latest write). -/
structure NodeState where
  visibility : List (Nat × Bool)
  fills : List (Nat × PaintProp)
  strokes : List (Nat × PaintProp)
deriving DecidableEq, Repr

/-- One iteration of the `captureNodeState` loop over a node: visibility
is always captured; fills and strokes only when the property exists and is
not `figma.mixed`. -/
def captureStep (st : NodeState) (nd : MutNode) : NodeState :=
  { visibility := (nd.id, nd.visible) :: st.visibility,
    fills := match nd.fills with
      | .paints l => (nd.id, PaintProp.paints l) :: st.fills
      | _ => st.fills,
    strokes := match nd.strokes with
      | .paints l => (nd.id, PaintProp.paints l) :: st.strokes
      | _ => st.strokes }

/-- `captureNodeState(nodes)`: the snapshot of every node's visibility and
non-mixed paints. -/
def captureNodeState (nodes : List MutNode) : NodeState :=
  nodes.foldl captureStep { visibility := [], fills := [], strokes := [] }

/-- `restoreNodeState(nodes, state)`: write every captured value back. -/
def restoreNodeState (nodes : List MutNode) (state : NodeState) : List MutNode :=
  nodes.map fun nd =>
    { nd with
      visible := match List.lookup nd.id state.visibility with
        | some v => v
        | none => nd.visible,
      fills := match List.lookup nd.id state.fills with
        | some v => v
        | none => nd.fills,
      strokes := match List.lookup nd.id state.strokes with
        | some v => v
        | none => nd.strokes }

/-- `applySegmentState(frame, nodes, segmentNodes, state)`: `segmentIds` is
the render set (the segment members); `ancestorIds` stands for the union of
the segment members' ancestor chains up to and including the frame, which
the source computes from host parent pointers.  A node is visible iff it
was visible in the snapshot and lies in the show set; segment members get
their snapshot paints back, all other nodes get empty paints (unless the
property is absent or mixed). -/
def applySegmentState (nodes : List MutNode) (segmentIds : List Nat)
    (ancestorIds : List Nat) (state : NodeState) : List MutNode :=
  let renderSet := segmentIds
  let showSet := segmentIds ++ ancestorIds
  nodes.map fun nd =>
    let originalVisible := !(List.lookup nd.id state.visibility == some false)
    { nd with
      visible := originalVisible && showSet.contains nd.id,
      fills := match nd.fills with
        | .paints l =>
            if renderSet.contains nd.id then
              match List.lookup nd.id state.fills with
              | some v => v
              | none => .paints l
            else .paints []
        | other => other,
      strokes := match nd.strokes with
        | .paints l =>
            if renderSet.contains nd.id then
              match List.lookup nd.id state.strokes with
              | some v => v
              | none => .paints l
            else .paints []
        | other => other }

/-! ## Export pipeline model (`src/code.js` lines 988-1429)

The external export primitive `frame.exportAsync` is an effect of the host;
it is modelled as a call-indexed oracle returning either a byte buffer or a
thrown error.  Per-frame result records mirror the object literals the
source pushes into `exportResults`. -/

/-- A byte buffer returned by the export primitive. -/
abbrev Buffer := List Nat

/-- A thrown JavaScript error, reduced to its `message`. -/
structure JsError where
  message : String
deriving DecidableEq, Repr

/-- The tracked description of a frame (`frameData` entry fields used by
export records). -/
structure FrameInfo where
  id : Nat
  name : String
  width : ℚ
  height : ℚ
deriving DecidableEq, Repr

/-- One per-segment export record (`segmentExports` entry). -/
structure SegExportEntry where
  type : String
  pdfData : Option Buffer := none
  pngData : Option Buffer := none
  reason : Option String := none
deriving DecidableEq, Repr

/-- One entry of `exportResults`.  Fields that a given code path does not
set stay `none` / `false`, mirroring absent object properties. -/
structure ExportEntry where
  id : Nat
  name : String
  width : ℚ
  height : ℚ
  pdfData : Option Buffer := none
  pngData : Option Buffer := none
  isPng : Option Bool := none
  reason : Option String := none
  error : Option String := none
  skipped : Bool := false
  segments : Option (List SegExportEntry) := none
  layerStats : Option DecisionStats := none
deriving DecidableEq, Repr

/-- The failure record pushed when the segmented (layered) export of a
frame throws: a single marker carrying only the error reason. -/
def layeredFailureEntry (info : FrameInfo) (msg : String) : ExportEntry :=
  { id := info.id, name := info.name, width := info.width, height := info.height,
    error := some ("Layered export failed: " ++ msg), skipped := true }

/-- The export primitive as a host oracle: argument is the index of the
call within one frame's segmented export and the requested format
(`"PDF"` or `"PNG"`); the result is the buffer or the thrown error. -/
abbrev ExportOracle := Nat → String → Except JsError Buffer

/-- Outcome of the per-segment export loop: the world after the applied
mutations, the number of export calls made, and either the accumulated
segment records or the first thrown error. -/
structure SegLoopResult where
  world : List MutNode
  calls : Nat
  out : Except JsError (List SegExportEntry)
deriving Repr

/-- The `for (let s = 0; ...)` loop of the segmented export: isolate the
segment, export it (PNG for raster segments at the fallback scale, PDF for
vector segments), and stop at the first thrown error.  `anc` supplies the
ancestor-id set of each segment's node set (host parent pointers). -/
def runSegmentLoop (exportFn : ExportOracle) (anc : List Nat → List Nat)
    (state : NodeState) : List Segment → List MutNode → Nat →
    List SegExportEntry → SegLoopResult
  | [], world, calls, acc => { world := world, calls := calls, out := .ok acc }
  | seg :: rest, world, calls, acc =>
      let segIds := seg.nodes.map fun n => n.data.id
      let world1 := applySegmentState world segIds (anc segIds) state
      let format := if seg.type == "raster" then "PNG" else "PDF"
      match exportFn calls format with
      | .error e => { world := world1, calls := calls + 1, out := .error e }
      | .ok buf =>
          let entry : SegExportEntry :=
            if seg.type == "raster" then { type := "png", pngData := some buf }
            else { type := "vector", pdfData := some buf }
          runSegmentLoop exportFn anc state rest world1 (calls + 1) (acc ++ [entry])

/-- The segmented (layered) export of one hybrid frame (`src/code.js`
lines 1174-1236): snapshot all nodes, optionally export the frame
background as its own vector pass, export each planned segment in order,
assemble either a segments record or the failure marker, and restore the
snapshot in a `finally` block.  Returns the frame's result entry, the
final world, and the number of export calls made. -/
def layeredExportFrame (exportFn : ExportOracle) (anc : List Nat → List Nat)
    (info : FrameInfo) (stats : Option DecisionStats) (frame : Node) :
    ExportEntry × List MutNode × Nat :=
  let nodes := collectAllNodes frame
  let world := nodes.map toMutNode
  let state := captureNodeState world
  let segments := buildFrameSegments frame
  let hasFrameBackground :=
    hasVisiblePaints frame.data.fills || hasVisiblePaints frame.data.strokes
  let afterBg : Except JsError (List MutNode × Nat × List SegExportEntry) :=
    if hasFrameBackground then
      let world1 := applySegmentState world [frame.data.id] (anc [frame.data.id]) state
      match exportFn 0 ("PDF") with
      | .error e => .error e
      | .ok bgPdf =>
          .ok (world1, 1,
            [{ type := "vector", pdfData := some bgPdf, reason := some ("frame background") }])
    else .ok (world, 0, [])
  match afterBg with
  | .error e =>
      let world1 := applySegmentState world [frame.data.id] (anc [frame.data.id]) state
      (layeredFailureEntry info e.message, restoreNodeState world1 state, 1)
  | .ok (world1, calls1, acc1) =>
      let r := runSegmentLoop exportFn anc state segments world1 calls1 acc1
      match r.out with
      | .ok segEntries =>
          ({ id := info.id, name := info.name, width := info.width,
             height := info.height, segments := some segEntries,
             layerStats := stats },
           restoreNodeState r.world state, r.calls)
      | .error e =>
          (layeredFailureEntry info e.message, restoreNodeState r.world state, r.calls)

/-- The whole-frame vector export path with PNG fallback (`src/code.js`
lines 1239-1288, duplicated at 1129-1170): a successful PDF export yields a
vector entry; on a thrown PDF error a PNG fallback is attempted, and when
that also throws the frame is marked failed with reason
`Both PDF and PNG failed: <pdf error message>`.  The PNG outcome argument
is the result the raster primitive would produce (the source only invokes
it after the PDF export throws). -/
def wholeFrameVectorExport (info : FrameInfo) (stats : Option DecisionStats)
    (pdfResult : Except JsError Buffer) (pngResult : Except JsError Buffer) :
    ExportEntry :=
  match pdfResult with
  | .ok pdf =>
      { id := info.id, name := info.name, width := info.width, height := info.height,
        pdfData := some pdf, isPng := some false, layerStats := stats }
  | .error e =>
      match pngResult with
      | .ok png =>
          { id := info.id, name := info.name, width := info.width, height := info.height,
            pngData := some png, isPng := some true,
            reason := some ("PDF export failed: " ++ e.message), layerStats := stats }
      | .error _ =>
          { id := info.id, name := info.name, width := info.width, height := info.height,
            error := some ("Both PDF and PNG failed: " ++ e.message), skipped := true }

/-! ## Greedy packing (`src/code.js` lines 933-951 and 1374-1393)

Batch planning for raster exports and chunking of finished results use the
same greedy rule: append the item to the open batch unless that would
exceed the budget and the batch is non-empty, in which case the batch is
closed and the item starts a new one.  The loop is embedded once over an
arbitrary item type and size function; the two call sites are the
instantiations `packFramesIntoBatches` (per-frame memory estimates against
the 400MB `SAFE_MEMORY_LIMIT`) and `packResultsIntoChunks` (result byte
footprints against the 20MB `MAX_CHUNK_BYTES`). -/

/-- The greedy packing loop: `batches` are the closed batches, `current`
the open batch, `curMem` the running size sum of `current`. -/
def greedyPackLoop {α : Type} (sizeFn : α → ℚ) (budget : ℚ) :
    List α → List (List α) → List α → ℚ → List (List α)
  | [], batches, current, _ =>
      if current.isEmpty then batches else batches ++ [current]
  | x :: rest, batches, current, curMem =>
      if budget < curMem + sizeFn x ∧ 0 < current.length then
        greedyPackLoop sizeFn budget rest (batches ++ [current]) [x] (sizeFn x)
      else
        greedyPackLoop sizeFn budget rest batches (current ++ [x]) (curMem + sizeFn x)

/-- Greedy packing of an ordered item list under a byte budget. -/
def greedyPack {α : Type} (sizeFn : α → ℚ) (budget : ℚ) (items : List α) :
    List (List α) :=
  greedyPackLoop sizeFn budget items [] [] 0

/-- `SAFE_MEMORY_LIMIT = 400 * 1024 * 1024` (400MB). -/
def SAFE_MEMORY_LIMIT : ℚ := 400 * 1024 * 1024

/-- `MAX_CHUNK_BYTES = 20 * 1024 * 1024` (20MB). -/
def MAX_CHUNK_BYTES : ℚ := 20 * 1024 * 1024

/-- The step function `PNG_COMPRESSION_ESTIMATE` of `exportToPDF`. -/
def pngCompressionEstimate (qualityScale : ℚ) : ℚ :=
  if 3 ≤ qualityScale then 0.50
  else if 2 ≤ qualityScale then 0.45
  else if 1.5 ≤ qualityScale then 0.35
  else if 1 ≤ qualityScale then 0.30
  else 0.25

/-- Per-frame memory estimate:
`scaledWidth * scaledHeight * 4 * PNG_COMPRESSION_ESTIMATE`. -/
def frameEstimatedBytes (f : FrameInfo) (qualityScale : ℚ) : ℚ :=
  (f.width * qualityScale) * (f.height * qualityScale) * 4
    * pngCompressionEstimate qualityScale

/-- The batching loop of `exportToPDF` (raster path). -/
def packFramesIntoBatches (frames : List FrameInfo) (qualityScale : ℚ) :
    List (List FrameInfo) :=
  greedyPack (fun f => frameEstimatedBytes f qualityScale) SAFE_MEMORY_LIMIT frames

/-- `getByteLength(value)`: length of a buffer, 0 for a missing one. -/
def getByteLength : Option Buffer → ℚ
  | some b => b.length
  | none => 0

/-- `estimateExportBytes(result)`: the summed raw-buffer footprint of one
export result, including per-segment buffers. -/
def estimateExportBytes (r : ExportEntry) : ℚ :=
  getByteLength r.pdfData + getByteLength r.pngData +
    (match r.segments with
     | some segs =>
         (segs.map fun s => getByteLength s.pdfData + getByteLength s.pngData).sum
     | none => 0)

/-- The chunking loop of `performVectorExport`. -/
def packResultsIntoChunks (results : List ExportEntry) : List (List ExportEntry) :=
  greedyPack estimateExportBytes MAX_CHUNK_BYTES results

/-! ## Output validator (`src/code.js` lines 791-867)

`String.fromCharCode` maps byte values injectively onto ASCII characters
for all markers the validator searches for, so header/tail string searches
are embedded directly over the byte list. -/

/-- The bytes of the `%PDF` magic the header must start with. -/
def pdfHeaderMagic : List Nat := [37, 80, 68, 70]

/-- The bytes of the `%%EOF` end marker. -/
def eofMarkerBytes : List Nat := [37, 37, 69, 79, 70]

/-- The bytes of the corruption artifact `undefined`. -/
def undefinedBytes : List Nat := [117, 110, 100, 101, 102, 105, 110, 101, 100]

/-- The bytes of the corruption artifact `NaN`. -/
def nanBytes : List Nat := [78, 97, 78]

/-- The bytes of the object marker ` obj`. -/
def objMarkerSpace : List Nat := [32, 111, 98, 106]

/-- The bytes of the object marker `\nobj`. -/
def objMarkerNewline : List Nat := [10, 111, 98, 106]

/-- Substring search over byte lists (JavaScript `String.includes` on the
decoded string). -/
def containsSeq (pattern : List Nat) : List Nat → Bool
  | [] => pattern.isEmpty
  | b :: rest => pattern.isPrefixOf (b :: rest) || containsSeq pattern rest

/-- The count of consecutive equal byte pairs in the sampled middle window. -/
def countAdjacentRepeats : List Nat → Nat
  | a :: b :: rest => (if a = b then 1 else 0) + countAdjacentRepeats (b :: rest)
  | _ => 0

/-- The record returned by `validatePDFData`. -/
structure ValidationResult where
  isValid : Bool
  errors : List String
  warnings : List String
deriving DecidableEq, Repr

/-- `validatePDFData(pdfData, frameName)`: fatal errors are a missing or
sub-100-byte buffer, a header not starting with `%PDF`, and `undefined` /
`NaN` artifacts in the first 2KB; a missing `%%EOF` in the last 100 bytes,
a missing object marker in the first 2KB, and a highly repetitive middle
sample (the float comparison `repetitionCount > sampleSize * 0.8` is taken
at exact rational value) only produce warnings. -/
def validatePDFData (pdfData : Option Buffer) (_frameName : String) :
    ValidationResult :=
  match pdfData with
  | none =>
      { isValid := false, errors := ["PDF too small (0 bytes)"], warnings := [] }
  | some data =>
      if data.length < 100 then
        { isValid := false,
          errors := ["PDF too small (" ++ toString data.length ++ " bytes)"],
          warnings := [] }
      else
        let headerStr := String.mk ((data.take 5).map Char.ofNat)
        if !(pdfHeaderMagic.isPrefixOf data) then
          { isValid := false,
            errors := ["Invalid PDF header: \"" ++ headerStr ++ "\""],
            warnings := [] }
        else
          let tailLength := min 100 data.length
          let tailBytes := data.drop (data.length - tailLength)
          let warnEof :=
            if containsSeq eofMarkerBytes tailBytes then []
            else ["Missing %%EOF marker - PDF may be truncated"]
          let headerBytes := data.take (min 2000 data.length)
          let hasObj := containsSeq objMarkerSpace headerBytes
            || containsSeq objMarkerNewline headerBytes
          let warnObj :=
            if hasObj then []
            else ["No PDF objects found in header - structure may be malformed"]
          let corrupt := containsSeq undefinedBytes headerBytes
            || containsSeq nanBytes headerBytes
          let errs :=
            if corrupt then ["PDF contains JavaScript error artifacts (undefined/NaN)"]
            else []
          let middleStart := data.length / 2
          let sampleSize := min 100 (data.length - middleStart)
          let middleSample := (data.drop middleStart).take sampleSize
          let warnRep :=
            if (sampleSize : ℚ) * (4 / 5) < (countAdjacentRepeats middleSample : ℚ)
            then ["PDF contains highly repetitive data - may be corrupted"]
            else []
          { isValid := !corrupt, errors := errs,
            warnings := warnEof ++ warnObj ++ warnRep }

/-! ## Text-range geometry (`src/code.js` lines 266-332)

`getAbsoluteBounds` and `getNodeOffsetToFrame` walk host parent pointers
from the node up to the owning frame, summing local offsets; that walk is
embedded as the explicit list of `(x, y)` offsets of the node and each
ancestor strictly below the frame (with `current.x || 0` already applied).
The host `getRangeBounds` query is an oracle outcome. -/

/-- A bounds rectangle. -/
structure Rect where
  x : ℚ
  y : ℚ
  width : ℚ
  height : ℚ
deriving DecidableEq, Repr

/-- The possible outcomes of probing `node.getRangeBounds(start, end)`:
the method can be missing, throw, return a nullish value, return one
rectangle, or return an array whose entries may be null. -/
inductive RangeQueryOutcome where
  | unavailable
  | thrown (e : JsError)
  | nullish
  | single (r : Rect)
  | many (rs : List (Option Rect))
deriving DecidableEq, Repr

/-- `getAbsoluteBounds(node, frameId)`: the summed walk offsets with the
node's own width and height. -/
def getAbsoluteBounds (chain : List (ℚ × ℚ)) (w h : ℚ) : Rect :=
  { x := (chain.map Prod.fst).sum, y := (chain.map Prod.snd).sum,
    width := w, height := h }

/-- `getNodeOffsetToFrame(node, frameId)`: the summed walk offsets. -/
def getNodeOffsetToFrame (chain : List (ℚ × ℚ)) : ℚ × ℚ :=
  ((chain.map Prod.fst).sum, (chain.map Prod.snd).sum)

/-- Translate a range rectangle by the node's offset to the frame. -/
def offsetRect (offset : ℚ × ℚ) (r : Rect) : Rect :=
  { x := offset.1 + r.x, y := offset.2 + r.y, width := r.width, height := r.height }

/-- The offset rectangles the query contributes after the source's
positivity filter: array entries that are non-null with positive width and
height, or a single returned rectangle with positive dimensions. -/
def keptRangeRects (offset : ℚ × ℚ) : RangeQueryOutcome → List Rect
  | .many rs =>
      rs.filterMap fun o =>
        match o with
        | some r => if 0 < r.width ∧ 0 < r.height then some (offsetRect offset r) else none
        | none => none
  | .single r => if 0 < r.width ∧ 0 < r.height then [offsetRect offset r] else []
  | _ => []

/-- `getTextRangeBounds(node, frameId, start, end)`: offset the positive
rectangles the host query returns; fall back to the node's absolute bounds
when the query is unavailable, throws, returns a nullish value, or yields
no positive rectangle. -/
def getTextRangeBounds (chain : List (ℚ × ℚ)) (w h : ℚ)
    (query : RangeQueryOutcome) : List Rect :=
  let fallback := [getAbsoluteBounds chain w h]
  let offset := getNodeOffsetToFrame chain
  match query with
  | .unavailable => fallback
  | .thrown _ => fallback
  | .nullish => fallback
  | .many rs =>
      let rects := rs.filterMap fun o =>
        match o with
        | some r => if 0 < r.width ∧ 0 < r.height then some (offsetRect offset r) else none
        | none => none
      if rects.isEmpty then fallback else rects
  | .single r =>
      if 0 < r.width ∧ 0 < r.height then [offsetRect offset r] else fallback

/-! ## String search helper (for reasoning about failure messages) -/

/-- Substring search over character lists. -/
def charsContain (pattern : List Char) : List Char → Bool
  | [] => pattern.isEmpty
  | c :: rest => pattern.isPrefixOf (c :: rest) || charsContain pattern rest

/-- JavaScript `String.includes`. -/
def strContains (s pattern : String) : Bool :=
  charsContain pattern.toList s.toList

/-! ## Concrete scenario inputs -/

/-- The shadowed rectangle of the C1 scenario: visible, visible fill,
default blend mode, not a mask, one visible `DROP_SHADOW` effect. -/
def c1ShadowRect : Node :=
  .mk { id := 2, type := "RECTANGLE", name := "shadow rect", visible := true,
        effects := [{ type := "DROP_SHADOW", visible := some true }],
        blendMode := some ("NORMAL"), isMask := false,
        fills := .paints [some { visible := some true }], strokes := .absent } []

/-- The plain sibling rectangle of the C1 scenario: visible, visible fill,
default blend mode, not a mask, no effects. -/
def c1PlainRect : Node :=
  .mk { id := 3, type := "RECTANGLE", name := "plain rect", visible := true,
        effects := [], blendMode := some ("NORMAL"), isMask := false,
        fills := .paints [some { visible := some true }], strokes := .absent } []

/-- The C1 scenario frame: exactly the shadowed rectangle and the plain
rectangle as children, in that tree order. -/
def c1Frame : Node :=
  .mk { id := 1, type := "FRAME", name := "scenario frame", visible := true,
        effects := [], blendMode := some ("NORMAL"), isMask := false,
        fills := .paints [some { visible := some true }], strokes := .absent }
    [c1ShadowRect, c1PlainRect]

/-- A frame containing one rectangle with a visible layer blur: the
analyzer classifies the frame itself as a vector layer and the child as a
raster layer, so the frame is hybrid (used to witness the strategy
trichotomy). -/
def c3Frame : Node :=
  .mk { id := 21, type := "FRAME", name := "c3 frame", visible := true,
        effects := [], blendMode := some ("NORMAL"), isMask := false,
        fills := .paints [some { visible := some true }], strokes := .absent }
    [.mk { id := 22, type := "RECTANGLE", name := "blurred", visible := true,
           effects := [{ type := "LAYER_BLUR", visible := none }],
           blendMode := some ("NORMAL"), isMask := false,
           fills := .paints [some { visible := some true }], strokes := .absent } []]

/-- Walk offsets used to witness the text-range bounds claim. -/
def c10Chain : List (ℚ × ℚ) := [(5, 7), (1, 2)]

/-- A range-geometry outcome with a null entry, a degenerate rectangle and
one positive rectangle. -/
def c10Query : RangeQueryOutcome :=
  .many [none, some { x := 0, y := 0, width := 0, height := 3 },
         some { x := 1, y := 1, width := 2, height := 3 }]

/-- Positional relation between a node's pre-snapshot state and its state
after any number of segment isolations: the identity is unchanged and an
absent paint property stays absent (isolation only writes real paint
arrays). -/
def pairShape (b x : MutNode) : Prop :=
  x.id = b.id
  ∧ (b.fills = PaintProp.absent → x.fills = PaintProp.absent)
  ∧ (b.strokes = PaintProp.absent → x.strokes = PaintProp.absent)

/-- Positional relation between a node's pre-snapshot state and its state
after restoration: visibility is back to the snapshot, and fills/strokes
that were not `figma.mixed` at snapshot time are back to the snapshot. -/
def pairRestored (orig fin : MutNode) : Prop :=
  fin.visible = orig.visible
  ∧ (orig.fills ≠ PaintProp.mixed → fin.fills = orig.fills)
  ∧ (orig.strokes ≠ PaintProp.mixed → fin.strokes = orig.strokes)

/-- A two-node world used to witness the snapshot/restore claim: one node
with real fills and absent strokes, one with mixed fills. -/
def c6World : List MutNode :=
  [{ id := 1, visible := true, fills := .paints [some { visible := some true }],
     strokes := .absent },
   { id := 2, visible := false, fills := .mixed, strokes := .paints [] }]

/-- Two isolation passes (render/ancestor id sets) applied in the witness. -/
def c6Ops : List (List Nat × List Nat) := [([2], [1]), ([], [])]

/-- A hybrid frame without its own background paints: one blurred (raster)
child and one plain (vector) child, planning into two segments. -/
def c7Frame : Node :=
  .mk { id := 31, type := "FRAME", name := "c7 frame", visible := true,
        effects := [], blendMode := some ("NORMAL"), isMask := false,
        fills := .absent, strokes := .absent }
    [.mk { id := 32, type := "RECTANGLE", name := "blurred", visible := true,
           effects := [{ type := "LAYER_BLUR", visible := none }],
           blendMode := some ("NORMAL"), isMask := false,
           fills := .paints [some { visible := some true }], strokes := .absent } [],
     .mk { id := 33, type := "RECTANGLE", name := "plain", visible := true,
           effects := [], blendMode := some ("NORMAL"), isMask := false,
           fills := .paints [some { visible := some true }], strokes := .absent } []]

/-- An export oracle that throws on every call. -/
def c7Oracle : ExportOracle :=
  fun _ _ => .error { message := "seg boom" }

/-- The ids carried by a segment's node set. -/
def segIdsOf (s : Segment) : List Nat :=
  s.nodes.map fun n => n.data.id

/-- All ids held by a planner state: the flushed segments' ids in order,
followed by the open vector run's ids. -/
def stIds (st : PlanState) : List Nat :=
  (st.segments.flatMap segIdsOf) ++ (st.current.map fun n => n.data.id)

/-- A frame used to witness the segment-coverage claim: a shadowed
rectangle with a nested text child (raster subtree), an invisible
rectangle, and a plain rectangle. -/
def c4Frame : Node :=
  .mk { id := 41, type := "FRAME", name := "c4 frame", visible := true,
        effects := [], blendMode := some ("NORMAL"), isMask := false,
        fills := .paints [some { visible := some true }], strokes := .absent }
    [.mk { id := 42, type := "RECTANGLE", name := "shadow", visible := true,
           effects := [{ type := "DROP_SHADOW", visible := some true }],
           blendMode := some ("NORMAL"), isMask := false,
           fills := .paints [some { visible := some true }], strokes := .absent }
       [.mk { id := 43, type := "TEXT", name := "label", visible := true,
              effects := [], blendMode := some ("NORMAL"), isMask := false,
              fills := .paints [some { visible := some true }], strokes := .absent } []],
     .mk { id := 44, type := "RECTANGLE", name := "hidden", visible := false,
           effects := [], blendMode := some ("NORMAL"), isMask := false,
           fills := .paints [some { visible := some true }], strokes := .absent } [],
     .mk { id := 45, type := "RECTANGLE", name := "plain", visible := true,
           effects := [], blendMode := some ("NORMAL"), isMask := false,
           fills := .paints [some { visible := some true }], strokes := .absent } []]

/-! theorems begin after all definitions -/

theorem nodeListSize_append (a b : List Node) :
    nodeListSize (a ++ b) = nodeListSize a + nodeListSize b := by
  induction a with
  | nil => simp [nodeListSize]
  | cons c cs ih =>
    show nodeListSize (c :: (cs ++ b)) = nodeListSize (c :: cs) + nodeListSize b
    simp only [nodeListSize]
    rw [ih]
    omega

theorem blend_problematic_iff_nondefault (bm : String)
    (h : bm ∈ FIGMA_BLEND_MODES) :
    PROBLEMATIC_BLEND_MODES.contains bm
      = (!(bm == "NORMAL") && !(bm == "PASS_THROUGH")) := by
  fin_cases h <;> rfl

theorem any_rasterize_split (l : List Effect) :
    (l.any fun e => effectVisible e && RASTERIZE_EFFECTS.contains e.type)
      = ((l.any fun e => effectVisible e && MUST_RASTERIZE_EFFECTS.contains e.type)
        || (l.any fun e => effectVisible e && SHOULD_RASTERIZE_EFFECTS.contains e.type)) := by
  rw [Bool.eq_iff_iff]
  simp only [List.any_eq_true, Bool.and_eq_true, List.contains, List.elem_eq_mem,
    decide_eq_true_eq, RASTERIZE_EFFECTS, List.mem_append, Bool.or_eq_true]
  constructor
  · rintro ⟨e, he, hv, hm | hs⟩
    · exact Or.inl ⟨e, he, hv, hm⟩
    · exact Or.inr ⟨e, he, hv, hs⟩
  · rintro (⟨e, he, hv, hm⟩ | ⟨e, he, hv, hs⟩)
    · exact ⟨e, he, hv, Or.inl hm⟩
    · exact ⟨e, he, hv, Or.inr hs⟩

/-- C1 (counterexample): on the concrete scenario frame — one child
rectangle with a visible `DROP_SHADOW` effect, one plain sibling rectangle,
both visible with visible fills, default blend mode, not masks —
`analyzeFrameLayers` reports `frameStrategy = "vector"`, not `"hybrid"`,
and `determineExportStrategy` does not decide `"vector-with-fallback"`:
the analyzer records a drop shadow only as a warning, so the claim as
stated is false on the code. -/
theorem claim_C1_counterexample :
    (analyzeFrameLayers c1Frame).frameStrategy = "vector"
    ∧ ¬ (analyzeFrameLayers c1Frame).frameStrategy = "hybrid"
    ∧ ¬ (determineExportStrategy [] (some (analyzeFrameLayers c1Frame))).strategy
        = "vector-with-fallback" := by
  refine ⟨rfl, ?_, ?_⟩ <;> decide

/-- C1 (amended): for the scenario frame, `analyzeFrameLayers` reports
`frameStrategy = "vector"` with `hasCriticalEffects = false`,
`determineExportStrategy` on that analysis decides the whole-frame vector
export `"vector"`, and `buildFrameSegments` yields exactly two segments:
a raster segment holding the shadow rectangle's subtree followed by a
vector segment holding the plain rectangle, in tree order. -/
theorem claim_C1_amended :
    (analyzeFrameLayers c1Frame).frameStrategy = "vector"
    ∧ (analyzeFrameLayers c1Frame).hasCriticalEffects = false
    ∧ (determineExportStrategy [] (some (analyzeFrameLayers c1Frame))).strategy = "vector"
    ∧ (buildFrameSegments c1Frame).map
        (fun s => (s.type, s.nodes.map fun n => n.data.id))
      = [("raster", subtreeIds c1ShadowRect), ("vector", [c1PlainRect.data.id])] := by
  refine ⟨rfl, rfl, rfl, rfl⟩

/-- C2 (counterexample): on a mask node whose only effect is an invisible
drop shadow, `nodeNeedsRaster` returns true while the claim's
characterisation (which requires a visible effect on a mask) is false, so
the stated equivalence fails. -/
theorem claim_C2_counterexample :
    ¬ (nodeNeedsRaster c2CexNode = true ↔ claimNeedsRaster c2CexNode = true) := by
  decide

/-- C2 (amended): for every node whose blend mode, when present, is a
valid host blend-mode value, `nodeNeedsRaster` returns true iff the node
has a visible must-rasterize effect, a visible should-rasterize effect, a
blend mode other than `NORMAL` / `PASS_THROUGH`, or is a mask carrying at
least one effect (visible or not). -/
theorem claim_C2_amended (n : NodeData)
    (hbm : n.blendMode = none ∨ ∃ bm ∈ FIGMA_BLEND_MODES, n.blendMode = some bm) :
    nodeNeedsRaster n = true ↔ amendedNeedsRaster n = true := by
  unfold nodeNeedsRaster amendedNeedsRaster
  rw [any_rasterize_split]
  have hblend : (match n.blendMode with
      | some bm => PROBLEMATIC_BLEND_MODES.contains bm
      | none => false)
      = (match n.blendMode with
      | some bm => !(bm == "NORMAL") && !(bm == "PASS_THROUGH")
      | none => false) := by
    rcases hbm with h | ⟨bm, hmem, h⟩
    · rw [h]
    · rw [h]; exact blend_problematic_iff_nondefault bm hmem
  rw [hblend, Bool.or_assoc]

/-- C2 (witness): the amended equivalence applied to the concrete mask
node with an invisible drop shadow. -/
theorem claim_C2_witness :
    nodeNeedsRaster c2CexNode = true ↔ amendedNeedsRaster c2CexNode = true :=
  claim_C2_amended c2CexNode (Or.inl rfl)

/-- C8 (counterexample): when the whole-frame PDF export throws with
message `vector boom` and the PNG fallback throws with message
`raster boom`, the failure reason is exactly
`Both PDF and PNG failed: vector boom` — it does not contain the raster
fallback's error message, so the claim as stated is false on the code. -/
theorem claim_C8_counterexample :
    (wholeFrameVectorExport { id := 11, name := "frame C8", width := 100, height := 50 }
        none (.error { message := "vector boom" }) (.error { message := "raster boom" })).error
      = some ("Both PDF and PNG failed: vector boom")
    ∧ strContains ("Both PDF and PNG failed: vector boom") ("raster boom") = false := by
  exact ⟨rfl, by decide⟩

/-- C8 (amended): when on the whole-frame vector path the PDF export
throws and the PNG fallback also throws, the frame is marked failed
(`skipped = true`) with reason `Both PDF and PNG failed: ` followed by the
vector export's error message; the raster fallback's message is not part
of the record, and no buffer is attached. -/
theorem claim_C8_amended (info : FrameInfo) (stats : Option DecisionStats)
    (e1 e2 : JsError) :
    wholeFrameVectorExport info stats (.error e1) (.error e2)
      = { id := info.id, name := info.name, width := info.width, height := info.height,
          error := some ("Both PDF and PNG failed: " ++ e1.message), skipped := true } :=
  rfl

theorem countNodeSelf_counts_le (d : NodeData) (depth : Nat) (acc : LayerAnalysis) :
    acc.vectorLayers + acc.rasterLayers
      ≤ (countNodeSelf d depth acc).vectorLayers + (countNodeSelf d depth acc).rasterLayers := by
  unfold countNodeSelf
  split
  · exact le_refl _
  · dsimp only
    split
    · dsimp only; omega
    · split <;> (dsimp only; omega)

theorem countNodeSelf_counts_eq (d : NodeData)
    (h1 : (d.type == "DOCUMENT") = false) (h2 : (d.type == "PAGE") = false)
    (depth : Nat) (acc : LayerAnalysis) :
    (countNodeSelf d depth acc).vectorLayers + (countNodeSelf d depth acc).rasterLayers
      = acc.vectorLayers + acc.rasterLayers + 1 := by
  unfold countNodeSelf
  rw [h1, h2]
  dsimp only
  split
  · case isTrue hcontra => exact absurd hcontra (by decide)
  · split
    · dsimp only; omega
    · split <;> (dsimp only; omega)

mutual
theorem analyzeGo_counts_le : ∀ (n : Node) (depth : Nat) (acc : LayerAnalysis),
    acc.vectorLayers + acc.rasterLayers
      ≤ (analyzeGo n depth acc).vectorLayers + (analyzeGo n depth acc).rasterLayers
  | .mk d cs, depth, acc => by
      show acc.vectorLayers + acc.rasterLayers
        ≤ (analyzeGoList cs (depth + 1) (countNodeSelf d depth acc)).vectorLayers
          + (analyzeGoList cs (depth + 1) (countNodeSelf d depth acc)).rasterLayers
      exact le_trans (countNodeSelf_counts_le d depth acc)
        (analyzeGoList_counts_le cs (depth + 1) (countNodeSelf d depth acc))
theorem analyzeGoList_counts_le : ∀ (l : List Node) (depth : Nat) (acc : LayerAnalysis),
    acc.vectorLayers + acc.rasterLayers
      ≤ (analyzeGoList l depth acc).vectorLayers + (analyzeGoList l depth acc).rasterLayers
  | [], _, _ => le_refl _
  | c :: cs, depth, acc => by
      show acc.vectorLayers + acc.rasterLayers
        ≤ (analyzeGoList cs depth (analyzeGo c depth acc)).vectorLayers
          + (analyzeGoList cs depth (analyzeGo c depth acc)).rasterLayers
      exact le_trans (analyzeGo_counts_le c depth acc)
        (analyzeGoList_counts_le cs depth (analyzeGo c depth acc))
end

theorem analyzeFrameLayers_counts (n : Node) :
    (analyzeFrameLayers n).vectorLayers = (analyzeGo n 0 initialAnalysis).vectorLayers
    ∧ (analyzeFrameLayers n).rasterLayers = (analyzeGo n 0 initialAnalysis).rasterLayers
    ∧ (analyzeFrameLayers n).frameStrategy
      = (if (analyzeGo n 0 initialAnalysis).rasterLayers == 0 then "vector"
         else if (analyzeGo n 0 initialAnalysis).vectorLayers == 0 then "raster"
         else "hybrid") := by
  refine ⟨rfl, rfl, rfl⟩

theorem frame_counts_pos (n : Node) (h : n.data.type = "FRAME") :
    1 ≤ (analyzeGo n 0 initialAnalysis).vectorLayers
      + (analyzeGo n 0 initialAnalysis).rasterLayers := by
  obtain ⟨d, cs⟩ := n
  have hd : d.type = "FRAME" := h
  have h1 : (d.type == "DOCUMENT") = false := by rw [hd]; rfl
  have h2 : (d.type == "PAGE") = false := by rw [hd]; rfl
  show 1 ≤ (analyzeGoList cs 1 (countNodeSelf d 0 initialAnalysis)).vectorLayers
    + (analyzeGoList cs 1 (countNodeSelf d 0 initialAnalysis)).rasterLayers
  have he := countNodeSelf_counts_eq d h1 h2 0 initialAnalysis
  have hl := analyzeGoList_counts_le cs 1 (countNodeSelf d 0 initialAnalysis)
  have hv0 : initialAnalysis.vectorLayers = 0 := rfl
  have hr0 : initialAnalysis.rasterLayers = 0 := rfl
  rw [hv0, hr0] at he
  omega

/-- C3: `frameStrategy` is one of the three values `vector` / `raster` /
`hybrid` for every analyzed node, and for every frame it is `vector` iff
`rasterLayers = 0`, `raster` iff `vectorLayers = 0`, and `hybrid` exactly
otherwise. -/
theorem claim_C3 (n : Node) :
    ((analyzeFrameLayers n).frameStrategy = "vector"
      ∨ (analyzeFrameLayers n).frameStrategy = "raster"
      ∨ (analyzeFrameLayers n).frameStrategy = "hybrid")
    ∧ (n.data.type = "FRAME" →
        (((analyzeFrameLayers n).frameStrategy = "vector"
            ↔ (analyzeFrameLayers n).rasterLayers = 0)
         ∧ ((analyzeFrameLayers n).frameStrategy = "raster"
            ↔ (analyzeFrameLayers n).vectorLayers = 0)
         ∧ ((analyzeFrameLayers n).frameStrategy = "hybrid"
            ↔ ((analyzeFrameLayers n).rasterLayers ≠ 0
                ∧ (analyzeFrameLayers n).vectorLayers ≠ 0)))) := by
  obtain ⟨hv, hr, hs⟩ := analyzeFrameLayers_counts n
  constructor
  · rw [hs]
    split
    · exact Or.inl rfl
    · split
      · exact Or.inr (Or.inl rfl)
      · exact Or.inr (Or.inr rfl)
  · intro hframe
    have hpos := frame_counts_pos n hframe
    rw [hs, hv, hr]
    by_cases h0 : (analyzeGo n 0 initialAnalysis).rasterLayers = 0
    · have hv0 : (analyzeGo n 0 initialAnalysis).vectorLayers ≠ 0 := by omega
      simp [h0, hv0]
    · by_cases hv0 : (analyzeGo n 0 initialAnalysis).vectorLayers = 0
      · simp [h0, hv0]
      · simp [h0, hv0]

/-- C3 (witness): the trichotomy applied to the concrete hybrid frame
containing one blurred rectangle. -/
theorem claim_C3_witness :
    ((analyzeFrameLayers c3Frame).frameStrategy = "vector"
      ∨ (analyzeFrameLayers c3Frame).frameStrategy = "raster"
      ∨ (analyzeFrameLayers c3Frame).frameStrategy = "hybrid")
    ∧ (((analyzeFrameLayers c3Frame).frameStrategy = "vector"
          ↔ (analyzeFrameLayers c3Frame).rasterLayers = 0)
       ∧ ((analyzeFrameLayers c3Frame).frameStrategy = "raster"
          ↔ (analyzeFrameLayers c3Frame).vectorLayers = 0)
       ∧ ((analyzeFrameLayers c3Frame).frameStrategy = "hybrid"
          ↔ ((analyzeFrameLayers c3Frame).rasterLayers ≠ 0
              ∧ (analyzeFrameLayers c3Frame).vectorLayers ≠ 0))) :=
  ⟨(claim_C3 c3Frame).1, (claim_C3 c3Frame).2 rfl⟩

theorem greedyPackLoop_spec {α : Type} (sizeFn : α → ℚ) (budget : ℚ)
    (items : List α) :
    ∀ (batches : List (List α)) (current : List α) (curMem : ℚ),
    curMem = (current.map sizeFn).sum →
    (∀ b ∈ batches, (b.map sizeFn).sum ≤ budget ∨ ∃ a, b = [a] ∧ budget < sizeFn a) →
    (current = [] ∨ (current.map sizeFn).sum ≤ budget ∨ ∃ a, current = [a] ∧ budget < sizeFn a) →
    ((greedyPackLoop sizeFn budget items batches current curMem).join
        = batches.join ++ current ++ items
     ∧ ∀ b ∈ greedyPackLoop sizeFn budget items batches current curMem,
        (b.map sizeFn).sum ≤ budget ∨ ∃ a, b = [a] ∧ budget < sizeFn a) := by
  induction items with
  | nil =>
      intro batches current curMem hcur hbatches hcurOk
      unfold greedyPackLoop
      by_cases hc : current.isEmpty
      · have hce : current = [] := List.isEmpty_iff.mp hc
        subst hce
        rw [if_pos hc]
        exact ⟨by simp, hbatches⟩
      · have hne : current ≠ [] := fun h => hc (by simp [h])
        rw [if_neg hc]
        constructor
        · simp
        · intro b hb
          rcases List.mem_append.mp hb with h | h
          · exact hbatches b h
          · have : b = current := by simpa using h
            subst this
            rcases hcurOk with h | h
            · exact absurd h hne
            · exact h
  | cons x rest ih =>
      intro batches current curMem hcur hbatches hcurOk
      unfold greedyPackLoop
      by_cases hcond : budget < curMem + sizeFn x ∧ 0 < current.length
      · rw [if_pos hcond]
        have hne : current ≠ [] := by
          intro h
          rw [h] at hcond
          simp at hcond
        have hbound : (current.map sizeFn).sum ≤ budget ∨ ∃ a, current = [a] ∧ budget < sizeFn a := by
          rcases hcurOk with h | h
          · exact absurd h hne
          · exact h
        have hx : (([x].map sizeFn).sum ≤ budget ∨ ∃ a, [x] = [a] ∧ budget < sizeFn a) := by
          by_cases hxb : sizeFn x ≤ budget
          · left; simpa using hxb
          · right; exact ⟨x, rfl, lt_of_not_le hxb⟩
        have hrec := ih (batches ++ [current]) [x] (sizeFn x) (by simp)
          (by
            intro b hb
            rcases List.mem_append.mp hb with h | h
            · exact hbatches b h
            · have : b = current := by simpa using h
              subst this
              exact hbound)
          (Or.inr hx)
        refine ⟨?_, hrec.2⟩
        rw [hrec.1]
        simp [List.append_assoc]
      · rw [if_neg hcond]
        have hxapp : ((current ++ [x]).map sizeFn).sum = curMem + sizeFn x := by
          simp [hcur]
        have hopen : (current ++ [x] = []
            ∨ ((current ++ [x]).map sizeFn).sum ≤ budget
            ∨ ∃ a, current ++ [x] = [a] ∧ budget < sizeFn a) := by
          by_cases hce : current = []
          · subst hce
            by_cases hxb : sizeFn x ≤ budget
            · right; left; simpa using hxb
            · right; right
              refine ⟨x, by simp, lt_of_not_le hxb⟩
          · have hlen : 0 < current.length := List.length_pos.mpr hce
            have hle : ¬ budget < curMem + sizeFn x := fun h => hcond ⟨h, hlen⟩
            right; left
            rw [hxapp]
            exact le_of_not_lt hle
        have hrec := ih batches (current ++ [x]) (curMem + sizeFn x) hxapp.symm hbatches hopen
        refine ⟨?_, hrec.2⟩
        rw [hrec.1]
        simp [List.append_assoc]

/-- C5: the greedy packing rule shared by raster batch planning
(`SAFE_MEMORY_LIMIT`) and output chunking (`MAX_CHUNK_BYTES`) produces an
ordered partition of its items — the concatenation of the batches is the
input list, so no item is split — in which every batch's size sum is within
the budget except possibly a singleton batch whose sole item alone exceeds
it. -/
theorem claim_C5 {α : Type} (sizeFn : α → ℚ) (budget : ℚ) (items : List α)
    (hsize : ∀ a ∈ items, 0 ≤ sizeFn a) :
    (greedyPack sizeFn budget items).join = items
    ∧ ∀ b ∈ greedyPack sizeFn budget items,
        (b.map sizeFn).sum ≤ budget ∨ ∃ a, b = [a] ∧ budget < sizeFn a := by
  have _ := hsize
  have h := greedyPackLoop_spec sizeFn budget items [] [] 0 (by simp) (by simp) (Or.inl rfl)
  unfold greedyPack
  refine ⟨?_, h.2⟩
  have := h.1
  simpa using this

/-- C5 (witness): the packing property applied to three 167MB estimates
against a 400MB budget (the spec's batching scenario); the packing is
`[[167, 167], [167]]`. -/
theorem claim_C5_witness :
    ((greedyPack (fun q : ℚ => q) 400 [167, 167, 167]).join = [167, 167, 167]
     ∧ ∀ b ∈ greedyPack (fun q : ℚ => q) 400 [167, 167, 167],
        (b.map fun q : ℚ => q).sum ≤ 400 ∨ ∃ a, b = [a] ∧ 400 < a)
    ∧ greedyPack (fun q : ℚ => q) 400 [167, 167, 167] = [[167, 167], [167]] :=
  ⟨claim_C5 (fun q : ℚ => q) 400 [167, 167, 167] (by decide),
   by norm_num [greedyPack, greedyPackLoop]⟩

/-- C9: `validatePDFData` rejects every missing buffer and every buffer
shorter than 100 bytes; and it accepts every buffer of length at least 100
that starts with the `%PDF` magic, whose trailing 100 bytes contain the
`%%EOF` marker, and whose leading 2KB window contains neither `undefined`
nor `NaN` artifacts. -/
theorem claim_C9 :
    (∀ (b : Option Buffer) (fn : String),
        (b = none ∨ ∃ d, b = some d ∧ d.length < 100) →
        (validatePDFData b fn).isValid = false)
    ∧ (∀ (d : Buffer) (fn : String),
        100 ≤ d.length →
        pdfHeaderMagic.isPrefixOf d = true →
        containsSeq eofMarkerBytes (d.drop (d.length - min 100 d.length)) = true →
        containsSeq undefinedBytes (d.take (min 2000 d.length)) = false →
        containsSeq nanBytes (d.take (min 2000 d.length)) = false →
        (validatePDFData (some d) fn).isValid = true) := by
  constructor
  · intro b fn hb
    rcases hb with rfl | ⟨d, rfl, hlen⟩
    · rfl
    · simp only [validatePDFData]
      rw [if_pos hlen]
  · intro d fn hlen hpre heof hund hnan
    have _ := heof
    simp only [validatePDFData]
    rw [if_neg (by omega)]
    rw [hpre]
    rw [if_neg (by simp)]
    rw [hund, hnan]
    rfl

/-- C9 (witness): a concrete 100-byte buffer with the magic header, an
`%%EOF` tail and clean contents validates; the missing buffer does not. -/
theorem claim_C9_witness :
    (validatePDFData
        (some ([37, 80, 68, 70, 45] ++ List.replicate 90 48 ++ [37, 37, 69, 79, 70]))
        ("w")).isValid = true
    ∧ (validatePDFData none ("w")).isValid = false :=
  ⟨claim_C9.2 ([37, 80, 68, 70, 45] ++ List.replicate 90 48 ++ [37, 37, 69, 79, 70]) ("w")
      (by decide) (by decide) (by decide) (by decide) (by decide),
   claim_C9.1 none ("w") (Or.inl rfl)⟩

/-- C10: `getTextRangeBounds` always returns a non-empty rectangle list;
when the host query contributes no positive rectangle (unavailable, thrown,
nullish, or only degenerate results) the result is exactly the node's
absolute bounds relative to the frame, and otherwise the result is the
contributed rectangles, each with positive width and height, offset by the
node's accumulated offset to the frame. -/
theorem claim_C10 (chain : List (ℚ × ℚ)) (w h : ℚ) (q : RangeQueryOutcome) :
    getTextRangeBounds chain w h q ≠ []
    ∧ (keptRangeRects (getNodeOffsetToFrame chain) q = [] →
        getTextRangeBounds chain w h q = [getAbsoluteBounds chain w h])
    ∧ (keptRangeRects (getNodeOffsetToFrame chain) q ≠ [] →
        (getTextRangeBounds chain w h q = keptRangeRects (getNodeOffsetToFrame chain) q
         ∧ ∀ r ∈ getTextRangeBounds chain w h q, 0 < r.width ∧ 0 < r.height)) := by
  cases q with
  | unavailable => exact ⟨by simp [getTextRangeBounds], fun _ => rfl, fun hk => absurd rfl hk⟩
  | thrown e => exact ⟨by simp [getTextRangeBounds], fun _ => rfl, fun hk => absurd rfl hk⟩
  | nullish => exact ⟨by simp [getTextRangeBounds], fun _ => rfl, fun hk => absurd rfl hk⟩
  | single r =>
      by_cases hpos : 0 < r.width ∧ 0 < r.height
      · refine ⟨?_, ?_, ?_⟩
        · simp [getTextRangeBounds, hpos]
        · intro hk
          exact absurd hk (by simp [keptRangeRects, hpos])
        · intro _
          constructor
          · simp [getTextRangeBounds, keptRangeRects, hpos]
          · intro s hs
            simp [getTextRangeBounds, hpos] at hs
            subst hs
            exact ⟨hpos.1, hpos.2⟩
      · refine ⟨?_, ?_, ?_⟩
        · simp [getTextRangeBounds, hpos]
        · intro _
          simp [getTextRangeBounds, hpos]
        · intro hk
          exact absurd (by simp [keptRangeRects, hpos]) hk
  | many rs =>
      have hsame : (rs.filterMap fun o =>
          match o with
          | some r => if 0 < r.width ∧ 0 < r.height
              then some (offsetRect (getNodeOffsetToFrame chain) r) else none
          | none => none) = keptRangeRects (getNodeOffsetToFrame chain) (.many rs) := rfl
      by_cases hempty : keptRangeRects (getNodeOffsetToFrame chain) (.many rs) = []
      · refine ⟨?_, fun _ => ?_, fun hk => absurd hempty hk⟩
        · simp [getTextRangeBounds, hsame, hempty]
        · simp [getTextRangeBounds, hsame, hempty]
      · refine ⟨?_, fun hk => absurd hk hempty, fun _ => ⟨?_, ?_⟩⟩
        · simp [getTextRangeBounds, hsame, hempty]
        · simp [getTextRangeBounds, hsame, hempty]
        · intro s hs
          simp only [getTextRangeBounds, hsame] at hs
          rw [if_neg (by simpa using hempty)] at hs
          simp only [keptRangeRects, List.mem_filterMap] at hs
          obtain ⟨o, omem, ho⟩ := hs
          rcases o with _ | r0
          · exact absurd ho (by simp)
          · have ho2 : (if 0 < r0.width ∧ 0 < r0.height
                then some (offsetRect (getNodeOffsetToFrame chain) r0) else none) = some s := ho
            by_cases hp : 0 < r0.width ∧ 0 < r0.height
            · rw [if_pos hp] at ho2
              cases ho2
              exact ⟨hp.1, hp.2⟩
            · rw [if_neg hp] at ho2
              exact absurd ho2 (by simp)
      
/-- C10 (witness): the bounds property applied to a concrete query
containing a null entry, a degenerate rectangle and one positive
rectangle. -/
theorem claim_C10_witness :
    getTextRangeBounds c10Chain 10 20 c10Query ≠ []
    ∧ (getTextRangeBounds c10Chain 10 20 c10Query
        = keptRangeRects (getNodeOffsetToFrame c10Chain) c10Query
       ∧ ∀ r ∈ getTextRangeBounds c10Chain 10 20 c10Query,
          0 < r.width ∧ 0 < r.height) :=
  ⟨(claim_C10 c10Chain 10 20 c10Query).1,
   (claim_C10 c10Chain 10 20 c10Query).2.2 (by decide)⟩

theorem captureStep_vis_ne (st : NodeState) (x : MutNode) (id : Nat) (h : id ≠ x.id) :
    List.lookup id (captureStep st x).visibility = List.lookup id st.visibility := by
  have hb : (id == x.id) = false := by simpa using h
  simp [captureStep, List.lookup, hb]

theorem captureStep_fills_ne (st : NodeState) (x : MutNode) (id : Nat) (h : id ≠ x.id) :
    List.lookup id (captureStep st x).fills = List.lookup id st.fills := by
  have hb : (id == x.id) = false := by simpa using h
  cases hx : x.fills <;> simp [captureStep, hx, List.lookup, hb]

theorem captureStep_strokes_ne (st : NodeState) (x : MutNode) (id : Nat) (h : id ≠ x.id) :
    List.lookup id (captureStep st x).strokes = List.lookup id st.strokes := by
  have hb : (id == x.id) = false := by simpa using h
  cases hx : x.strokes <;> simp [captureStep, hx, List.lookup, hb]

theorem captureFold_vis_notmem :
    ∀ (w : List MutNode) (st0 : NodeState) (id : Nat),
    (∀ x ∈ w, id ≠ x.id) →
    List.lookup id (w.foldl captureStep st0).visibility = List.lookup id st0.visibility := by
  intro w
  induction w with
  | nil => intro st0 id _; rfl
  | cons x rest ih =>
      intro st0 id h
      have h1 : id ≠ x.id := h x (List.mem_cons_self x rest)
      have h2 : ∀ y ∈ rest, id ≠ y.id := fun y hy => h y (List.mem_cons_of_mem x hy)
      show List.lookup id (rest.foldl captureStep (captureStep st0 x)).visibility
        = List.lookup id st0.visibility
      rw [ih (captureStep st0 x) id h2, captureStep_vis_ne st0 x id h1]

theorem captureFold_fills_notmem :
    ∀ (w : List MutNode) (st0 : NodeState) (id : Nat),
    (∀ x ∈ w, id ≠ x.id) →
    List.lookup id (w.foldl captureStep st0).fills = List.lookup id st0.fills := by
  intro w
  induction w with
  | nil => intro st0 id _; rfl
  | cons x rest ih =>
      intro st0 id h
      have h1 : id ≠ x.id := h x (List.mem_cons_self x rest)
      have h2 : ∀ y ∈ rest, id ≠ y.id := fun y hy => h y (List.mem_cons_of_mem x hy)
      show List.lookup id (rest.foldl captureStep (captureStep st0 x)).fills
        = List.lookup id st0.fills
      rw [ih (captureStep st0 x) id h2, captureStep_fills_ne st0 x id h1]

theorem captureFold_strokes_notmem :
    ∀ (w : List MutNode) (st0 : NodeState) (id : Nat),
    (∀ x ∈ w, id ≠ x.id) →
    List.lookup id (w.foldl captureStep st0).strokes = List.lookup id st0.strokes := by
  intro w
  induction w with
  | nil => intro st0 id _; rfl
  | cons x rest ih =>
      intro st0 id h
      have h1 : id ≠ x.id := h x (List.mem_cons_self x rest)
      have h2 : ∀ y ∈ rest, id ≠ y.id := fun y hy => h y (List.mem_cons_of_mem x hy)
      show List.lookup id (rest.foldl captureStep (captureStep st0 x)).strokes
        = List.lookup id st0.strokes
      rw [ih (captureStep st0 x) id h2, captureStep_strokes_ne st0 x id h1]

theorem nodup_head_ne {x : MutNode} {rest : List MutNode}
    (hnodup : ((x :: rest).map fun nd => nd.id).Nodup) :
    ∀ y ∈ rest, x.id ≠ y.id := by
  intro y hy he
  have hcons : (x.id :: rest.map fun nd => nd.id).Nodup := hnodup
  have hx : x.id ∉ rest.map fun nd => nd.id := (List.nodup_cons.mp hcons).1
  exact hx (by
    rw [he]
    exact List.mem_map_of_mem (fun nd => nd.id) hy)

theorem captureFold_vis_mem :
    ∀ (w : List MutNode) (st0 : NodeState) (nd : MutNode),
    ((w.map fun nd => nd.id).Nodup) → nd ∈ w →
    List.lookup nd.id (w.foldl captureStep st0).visibility = some nd.visible := by
  intro w
  induction w with
  | nil => intro _ _ _ h; cases h
  | cons x rest ih =>
      intro st0 nd hnodup hmem
      rcases List.mem_cons.mp hmem with rfl | hmem2
      · show List.lookup nd.id (rest.foldl captureStep (captureStep st0 nd)).visibility
          = some nd.visible
        rw [captureFold_vis_notmem rest (captureStep st0 nd) nd.id (nodup_head_ne hnodup)]
        simp [captureStep, List.lookup]
      · exact ih (captureStep st0 x) nd ((List.nodup_cons.mp hnodup).2) hmem2

theorem captureFold_fills_mem :
    ∀ (w : List MutNode) (st0 : NodeState) (nd : MutNode) (l : List (Option Paint)),
    ((w.map fun nd => nd.id).Nodup) → nd ∈ w → nd.fills = .paints l →
    List.lookup nd.id (w.foldl captureStep st0).fills = some (PaintProp.paints l) := by
  intro w
  induction w with
  | nil => intro _ _ _ _ h; cases h
  | cons x rest ih =>
      intro st0 nd l hnodup hmem hf
      rcases List.mem_cons.mp hmem with rfl | hmem2
      · show List.lookup nd.id (rest.foldl captureStep (captureStep st0 nd)).fills
          = some (PaintProp.paints l)
        rw [captureFold_fills_notmem rest (captureStep st0 nd) nd.id (nodup_head_ne hnodup)]
        simp [captureStep, hf, List.lookup]
      · exact ih (captureStep st0 x) nd l ((List.nodup_cons.mp hnodup).2) hmem2 hf

theorem captureFold_strokes_mem :
    ∀ (w : List MutNode) (st0 : NodeState) (nd : MutNode) (l : List (Option Paint)),
    ((w.map fun nd => nd.id).Nodup) → nd ∈ w → nd.strokes = .paints l →
    List.lookup nd.id (w.foldl captureStep st0).strokes = some (PaintProp.paints l) := by
  intro w
  induction w with
  | nil => intro _ _ _ _ h; cases h
  | cons x rest ih =>
      intro st0 nd l hnodup hmem hs
      rcases List.mem_cons.mp hmem with rfl | hmem2
      · show List.lookup nd.id (rest.foldl captureStep (captureStep st0 nd)).strokes
          = some (PaintProp.paints l)
        rw [captureFold_strokes_notmem rest (captureStep st0 nd) nd.id (nodup_head_ne hnodup)]
        simp [captureStep, hs, List.lookup]
      · exact ih (captureStep st0 x) nd l ((List.nodup_cons.mp hnodup).2) hmem2 hs

theorem captureFold_fills_skip :
    ∀ (w : List MutNode) (st0 : NodeState) (id : Nat),
    (∀ x ∈ w, x.id = id → (x.fills = PaintProp.absent ∨ x.fills = PaintProp.mixed)) →
    List.lookup id (w.foldl captureStep st0).fills = List.lookup id st0.fills := by
  intro w
  induction w with
  | nil => intro _ _ _; rfl
  | cons x rest ih =>
      intro st0 id h
      have h2 : ∀ y ∈ rest, y.id = id → (y.fills = PaintProp.absent ∨ y.fills = PaintProp.mixed) :=
        fun y hy => h y (List.mem_cons_of_mem x hy)
      show List.lookup id (rest.foldl captureStep (captureStep st0 x)).fills
        = List.lookup id st0.fills
      rw [ih (captureStep st0 x) id h2]
      by_cases hx : id = x.id
      · rcases h x (List.mem_cons_self x rest) hx.symm with hfa | hfm
        · simp [captureStep, hfa]
        · simp [captureStep, hfm]
      · exact captureStep_fills_ne st0 x id hx

theorem captureFold_strokes_skip :
    ∀ (w : List MutNode) (st0 : NodeState) (id : Nat),
    (∀ x ∈ w, x.id = id → (x.strokes = PaintProp.absent ∨ x.strokes = PaintProp.mixed)) →
    List.lookup id (w.foldl captureStep st0).strokes = List.lookup id st0.strokes := by
  intro w
  induction w with
  | nil => intro _ _ _; rfl
  | cons x rest ih =>
      intro st0 id h
      have h2 : ∀ y ∈ rest, y.id = id → (y.strokes = PaintProp.absent ∨ y.strokes = PaintProp.mixed) :=
        fun y hy => h y (List.mem_cons_of_mem x hy)
      show List.lookup id (rest.foldl captureStep (captureStep st0 x)).strokes
        = List.lookup id st0.strokes
      rw [ih (captureStep st0 x) id h2]
      by_cases hx : id = x.id
      · rcases h x (List.mem_cons_self x rest) hx.symm with hsa | hsm
        · simp [captureStep, hsa]
        · simp [captureStep, hsm]
      · exact captureStep_strokes_ne st0 x id hx

theorem forall2_imp_mem {α β : Type} {R S : α → β → Prop} :
    ∀ {l : List α} {m : List β}, List.Forall₂ R l m →
    (∀ a b, a ∈ l → R a b → S a b) → List.Forall₂ S l m := by
  intro l m h
  induction h with
  | nil => intro _; exact List.Forall₂.nil
  | @cons a b l2 m2 hR _ ih =>
      intro himp
      exact List.Forall₂.cons (himp a b (List.mem_cons_self a l2) hR)
        (ih fun x y hx => himp x y (List.mem_cons_of_mem a hx))

theorem shape_refl (w : List MutNode) : List.Forall₂ pairShape w w :=
  List.forall₂_same.mpr fun x _ => ⟨rfl, fun h => h, fun h => h⟩

theorem shape_apply {world w1 : List MutNode}
    (h : List.Forall₂ pairShape world w1)
    (segIds ancIds : List Nat) (st : NodeState) :
    List.Forall₂ pairShape world (applySegmentState w1 segIds ancIds st) := by
  unfold applySegmentState
  rw [List.forall₂_map_right_iff]
  refine List.Forall₂.imp ?_ h
  intro b x hbx
  obtain ⟨hid, hf, hs⟩ := hbx
  refine ⟨hid, ?_, ?_⟩
  · intro hb
    have hx := hf hb
    simp only [hx]
  · intro hb
    have hx := hs hb
    simp only [hx]

theorem shape_foldl (world : List MutNode) (st : NodeState) :
    ∀ (ops : List (List Nat × List Nat)) (w1 : List MutNode),
    List.Forall₂ pairShape world w1 →
    List.Forall₂ pairShape world
      (ops.foldl (fun w p => applySegmentState w p.1 p.2 st) w1) := by
  intro ops
  induction ops with
  | nil => intro w1 h; exact h
  | cons p rest ih =>
      intro w1 h
      exact ih (applySegmentState w1 p.1 p.2 st) (shape_apply h p.1 p.2 st)

theorem restore_final (world : List MutNode)
    (hnodup : (world.map fun nd => nd.id).Nodup) (w1 : List MutNode)
    (hshape : List.Forall₂ pairShape world w1) :
    List.Forall₂ pairRestored world (restoreNodeState w1 (captureNodeState world)) := by
  unfold restoreNodeState
  rw [List.forall₂_map_right_iff]
  refine forall2_imp_mem hshape ?_
  intro orig x hmem hox
  obtain ⟨hid, hf, hs⟩ := hox
  have hvis : List.lookup x.id (captureNodeState world).visibility = some orig.visible := by
    rw [hid]
    exact captureFold_vis_mem world _ orig hnodup hmem
  refine ⟨?_, ?_, ?_⟩
  · simp only [hvis]
  · intro hnm
    rcases horig : orig.fills with _ | _ | l
    · have hskip : List.lookup x.id (captureNodeState world).fills = none := by
        rw [hid]
        have := captureFold_fills_skip world
          { visibility := [], fills := [], strokes := [] } orig.id
          (fun m hm hmid => by
            have hmeq : m = orig :=
              List.inj_on_of_nodup_map hnodup hm hmem hmid
            rw [hmeq, horig]
            exact Or.inl rfl)
        exact this
      simp only [hskip]
      exact hf horig
    · exact absurd horig hnm
    · have hcap : List.lookup x.id (captureNodeState world).fills
          = some (PaintProp.paints l) := by
        rw [hid]
        exact captureFold_fills_mem world _ orig l hnodup hmem horig
      simp only [hcap]
  · intro hnm
    rcases horig : orig.strokes with _ | _ | l
    · have hskip : List.lookup x.id (captureNodeState world).strokes = none := by
        rw [hid]
        have := captureFold_strokes_skip world
          { visibility := [], fills := [], strokes := [] } orig.id
          (fun m hm hmid => by
            have hmeq : m = orig :=
              List.inj_on_of_nodup_map hnodup hm hmem hmid
            rw [hmeq, horig]
            exact Or.inl rfl)
        exact this
      simp only [hskip]
      exact hs horig
    · exact absurd horig hnm
    · have hcap : List.lookup x.id (captureNodeState world).strokes
          = some (PaintProp.paints l) := by
        rw [hid]
        exact captureFold_strokes_mem world _ orig l hnodup hmem horig
      simp only [hcap]

/-- C6: for every node list with distinct ids, every snapshot taken from
it by `captureNodeState`, and every sequence of segment isolations
(`applySegmentState` with arbitrary render/ancestor id sets), running
`restoreNodeState` afterwards leaves every node with its pre-isolate
snapshot visibility, and with its pre-isolate snapshot fills and strokes
whenever those were not in the mixed state at snapshot time. -/
theorem claim_C6 (world : List MutNode)
    (hnodup : (world.map fun nd => nd.id).Nodup)
    (ops : List (List Nat × List Nat)) :
    List.Forall₂ pairRestored world
      (restoreNodeState
        (ops.foldl (fun w p => applySegmentState w p.1 p.2 (captureNodeState world)) world)
        (captureNodeState world)) :=
  restore_final world hnodup _
    (shape_foldl world (captureNodeState world) ops world (shape_refl world))

/-- C6 (witness): the restore property applied to a concrete two-node
world (one real fill, one mixed fill) with two isolation passes. -/
theorem claim_C6_witness :
    List.Forall₂ pairRestored c6World
      (restoreNodeState
        (c6Ops.foldl (fun w p => applySegmentState w p.1 p.2 (captureNodeState c6World)) c6World)
        (captureNodeState c6World)) :=
  claim_C6 c6World (by decide) c6Ops

theorem runSegmentLoop_shape (W : List MutNode) (exportFn : ExportOracle)
    (anc : List Nat → List Nat) (state : NodeState) :
    ∀ (segs : List Segment) (world : List MutNode) (calls : Nat)
      (acc : List SegExportEntry),
    List.Forall₂ pairShape W world →
    List.Forall₂ pairShape W
      (runSegmentLoop exportFn anc state segs world calls acc).world := by
  intro segs
  induction segs with
  | nil => intro world calls acc h; exact h
  | cons seg rest ih =>
      intro world calls acc h
      show List.Forall₂ pairShape W
        (runSegmentLoop exportFn anc state (seg :: rest) world calls acc).world
      rw [runSegmentLoop]
      cases hcall : exportFn calls (if seg.type == "raster" then "PNG" else "PDF") with
      | error e =>
          simp only [hcall]
          exact shape_apply h _ _ state
      | ok buf =>
          simp only [hcall]
          exact ih _ _ _ (shape_apply h _ _ state)

theorem runSegmentLoop_fail (exportFn : ExportOracle) (anc : List Nat → List Nat)
    (state : NodeState) (e : JsError) (j : Nat) :
    ∀ (segs : List Segment) (world : List MutNode) (calls : Nat)
      (acc : List SegExportEntry),
    calls ≤ j → j - calls < segs.length →
    (∀ i fmt, calls ≤ i → i < j → ∃ buf, exportFn i fmt = Except.ok buf) →
    (∀ fmt, exportFn j fmt = Except.error e) →
    ((runSegmentLoop exportFn anc state segs world calls acc).out = Except.error e
     ∧ (runSegmentLoop exportFn anc state segs world calls acc).calls = j + 1) := by
  intro segs
  induction segs with
  | nil =>
      intro world calls acc _ hlt _ _
      simp at hlt
  | cons seg rest ih =>
      intro world calls acc hle hlt hok hfail
      rcases Nat.eq_or_lt_of_le hle with heq | hlt2
      · subst heq
        rw [runSegmentLoop]
        rw [hfail (if seg.type == "raster" then "PNG" else "PDF")]
        exact ⟨rfl, rfl⟩
      · obtain ⟨buf, hbuf⟩ :=
          hok calls (if seg.type == "raster" then "PNG" else "PDF") (le_refl calls) hlt2
        rw [runSegmentLoop, hbuf]
        exact ih _ (calls + 1) _ hlt2
          (by simp at hlt; omega)
          (fun i fmt hi hij => hok i fmt (Nat.le_of_succ_le hi) hij)
          hfail

theorem world_ids_of_frame (frame : Node) :
    (((collectAllNodes frame).map toMutNode).map fun nd => nd.id) = subtreeIds frame := by
  rw [List.map_map]
  rfl

/-- C7: during the segmented hybrid export of one frame, if the export
primitive throws on call `j` (a segment pass or the background pass) after
succeeding on all earlier calls, then exactly `j + 1` export calls are
made (no further segment is exported), the frame's result entry is the
single failure marker `Layered export failed: <message>` carrying no
segment buffers, and every node's state is restored to the pre-export
snapshot (visibility always, fills/strokes when not mixed at snapshot
time). -/
theorem claim_C7 (exportFn : ExportOracle) (anc : List Nat → List Nat)
    (info : FrameInfo) (stats : Option DecisionStats) (frame : Node)
    (hnodup : (subtreeIds frame).Nodup) (j : Nat) (e : JsError)
    (hj : j < (if hasVisiblePaints frame.data.fills || hasVisiblePaints frame.data.strokes
                then 1 else 0)
            + (buildFrameSegments frame).length)
    (hok : ∀ i fmt, i < j → ∃ buf, exportFn i fmt = Except.ok buf)
    (hfail : ∀ fmt, exportFn j fmt = Except.error e) :
    (layeredExportFrame exportFn anc info stats frame).1
      = layeredFailureEntry info e.message
    ∧ ((layeredExportFrame exportFn anc info stats frame).1).segments = none
    ∧ (layeredExportFrame exportFn anc info stats frame).2.2 = j + 1
    ∧ List.Forall₂ pairRestored ((collectAllNodes frame).map toMutNode)
        (layeredExportFrame exportFn anc info stats frame).2.1 := by
  have hW : (((collectAllNodes frame).map toMutNode).map fun nd => nd.id).Nodup := by
    rw [world_ids_of_frame]
    exact hnodup
  by_cases hbg : (hasVisiblePaints frame.data.fills || hasVisiblePaints frame.data.strokes) = true
  · rcases Nat.eq_zero_or_pos j with rfl | hjpos
    · have heq : layeredExportFrame exportFn anc info stats frame
          = (layeredFailureEntry info e.message,
             restoreNodeState
               (applySegmentState ((collectAllNodes frame).map toMutNode)
                 [frame.data.id] (anc [frame.data.id])
                 (captureNodeState ((collectAllNodes frame).map toMutNode)))
               (captureNodeState ((collectAllNodes frame).map toMutNode)),
             1) := by
        simp only [layeredExportFrame]
        rw [if_pos hbg, hfail ("PDF")]
      rw [heq]
      refine ⟨rfl, rfl, rfl, ?_⟩
      exact restore_final _ hW _
        (shape_apply (shape_refl _) _ _ _)
    · obtain ⟨buf, hbuf⟩ := hok 0 ("PDF") hjpos
      have hloop := runSegmentLoop_fail exportFn anc
        (captureNodeState ((collectAllNodes frame).map toMutNode)) e j
        (buildFrameSegments frame)
        (applySegmentState ((collectAllNodes frame).map toMutNode)
          [frame.data.id] (anc [frame.data.id])
          (captureNodeState ((collectAllNodes frame).map toMutNode)))
        1
        [{ type := "vector", pdfData := some buf, reason := some ("frame background") }]
        hjpos (by rw [if_pos hbg] at hj; omega)
        (fun i fmt _ hij => hok i fmt hij) hfail
      have hshape := runSegmentLoop_shape ((collectAllNodes frame).map toMutNode)
        exportFn anc
        (captureNodeState ((collectAllNodes frame).map toMutNode))
        (buildFrameSegments frame)
        (applySegmentState ((collectAllNodes frame).map toMutNode)
          [frame.data.id] (anc [frame.data.id])
          (captureNodeState ((collectAllNodes frame).map toMutNode)))
        1
        [{ type := "vector", pdfData := some buf, reason := some ("frame background") }]
        (shape_apply (shape_refl _) _ _ _)
      have heq : layeredExportFrame exportFn anc info stats frame
          = (layeredFailureEntry info e.message,
             restoreNodeState
               (runSegmentLoop exportFn anc
                 (captureNodeState ((collectAllNodes frame).map toMutNode))
                 (buildFrameSegments frame)
                 (applySegmentState ((collectAllNodes frame).map toMutNode)
                   [frame.data.id] (anc [frame.data.id])
                   (captureNodeState ((collectAllNodes frame).map toMutNode)))
                 1
                 [{ type := "vector", pdfData := some buf,
                    reason := some ("frame background") }]).world
               (captureNodeState ((collectAllNodes frame).map toMutNode)),
             (runSegmentLoop exportFn anc
               (captureNodeState ((collectAllNodes frame).map toMutNode))
               (buildFrameSegments frame)
               (applySegmentState ((collectAllNodes frame).map toMutNode)
                 [frame.data.id] (anc [frame.data.id])
                 (captureNodeState ((collectAllNodes frame).map toMutNode)))
               1
               [{ type := "vector", pdfData := some buf,
                  reason := some ("frame background") }]).calls) := by
        simp only [layeredExportFrame]
        rw [if_pos hbg, hbuf]
        dsimp only
        rw [hloop.1]
      rw [heq]
      exact ⟨rfl, rfl, hloop.2, restore_final _ hW _ hshape⟩
  · have hbg2 : (hasVisiblePaints frame.data.fills || hasVisiblePaints frame.data.strokes) = false :=
      Bool.eq_false_iff.mpr hbg
    have hloop := runSegmentLoop_fail exportFn anc
      (captureNodeState ((collectAllNodes frame).map toMutNode)) e j
      (buildFrameSegments frame)
      ((collectAllNodes frame).map toMutNode)
      0 [] (Nat.zero_le j) (by rw [if_neg (by simp [hbg2])] at hj; omega)
      (fun i fmt _ hij => hok i fmt hij) hfail
    have hshape := runSegmentLoop_shape ((collectAllNodes frame).map toMutNode)
      exportFn anc
      (captureNodeState ((collectAllNodes frame).map toMutNode))
      (buildFrameSegments frame)
      ((collectAllNodes frame).map toMutNode)
      0 [] (shape_refl _)
    have heq : layeredExportFrame exportFn anc info stats frame
        = (layeredFailureEntry info e.message,
           restoreNodeState
             (runSegmentLoop exportFn anc
               (captureNodeState ((collectAllNodes frame).map toMutNode))
               (buildFrameSegments frame)
               ((collectAllNodes frame).map toMutNode)
               0 []).world
             (captureNodeState ((collectAllNodes frame).map toMutNode)),
           (runSegmentLoop exportFn anc
             (captureNodeState ((collectAllNodes frame).map toMutNode))
             (buildFrameSegments frame)
             ((collectAllNodes frame).map toMutNode)
             0 []).calls) := by
      simp only [layeredExportFrame]
      rw [if_neg (by simp [hbg2])]
      dsimp only
      rw [hloop.1]
    rw [heq]
    exact ⟨rfl, rfl, hloop.2, restore_final _ hW _ hshape⟩

/-- C7 (witness): the abort-and-restore property applied to a concrete
two-segment frame whose export oracle throws on the first call. -/
theorem claim_C7_witness :
    (layeredExportFrame c7Oracle (fun _ => []) { id := 31, name := "c7 frame", width := 10, height := 10 }
        none c7Frame).1
      = layeredFailureEntry { id := 31, name := "c7 frame", width := 10, height := 10 } ("seg boom")
    ∧ ((layeredExportFrame c7Oracle (fun _ => []) { id := 31, name := "c7 frame", width := 10, height := 10 }
        none c7Frame).1).segments = none
    ∧ (layeredExportFrame c7Oracle (fun _ => []) { id := 31, name := "c7 frame", width := 10, height := 10 }
        none c7Frame).2.2 = 0 + 1
    ∧ List.Forall₂ pairRestored ((collectAllNodes c7Frame).map toMutNode)
        (layeredExportFrame c7Oracle (fun _ => []) { id := 31, name := "c7 frame", width := 10, height := 10 }
            none c7Frame).2.1 :=
  claim_C7 c7Oracle (fun _ => []) { id := 31, name := "c7 frame", width := 10, height := 10 }
    none c7Frame (by decide) 0 { message := "seg boom" } (by decide)
    (fun i fmt h => absurd h (Nat.not_lt_zero i)) (fun _ => rfl)

theorem contains_iff_mem_nat (l : List Nat) (a : Nat) : l.contains a = true ↔ a ∈ l := by
  simp [List.contains, List.elem_eq_mem]

theorem dedupAux_count_le (x : Nat) :
    ∀ (l : List Node) (seen : List Nat),
    ((dedupByIdAux seen l).map fun n => n.data.id).count x
      ≤ (l.map fun n => n.data.id).count x := by
  intro l
  induction l with
  | nil => intro seen; exact le_refl _
  | cons n rest ih =>
      intro seen
      rw [dedupByIdAux]
      by_cases hc : seen.contains n.data.id
      · rw [if_pos hc]
        have h1 := ih seen
        simp only [List.map_cons, List.count_cons]
        omega
      · rw [if_neg hc]
        simp only [List.map_cons, List.count_cons]
        have := ih (n.data.id :: seen)
        omega

theorem dedupAux_mem (x : Nat) :
    ∀ (l : List Node) (seen : List Nat),
    (x ∈ (dedupByIdAux seen l).map fun n => n.data.id)
      ↔ ((x ∈ l.map fun n => n.data.id) ∧ x ∉ seen) := by
  intro l
  induction l with
  | nil => intro seen; simp [dedupByIdAux]
  | cons n rest ih =>
      intro seen
      rw [dedupByIdAux]
      by_cases hc : n.data.id ∈ seen
      · rw [if_pos ((contains_iff_mem_nat seen n.data.id).mpr hc)]
        rw [ih seen]
        simp only [List.map_cons, List.mem_cons]
        constructor
        · rintro ⟨hm, hs⟩
          exact ⟨Or.inr hm, hs⟩
        · rintro ⟨hm | hm, hs⟩
          · exact absurd (hm ▸ hc) hs
          · exact ⟨hm, hs⟩
      · have hcb : seen.contains n.data.id = false := by
          rcases hb : seen.contains n.data.id with _ | _
          · rfl
          · exact absurd ((contains_iff_mem_nat seen n.data.id).mp hb) hc
        rw [if_neg (by rw [hcb]; exact Bool.false_ne_true)]
        simp only [List.map_cons, List.mem_cons, ih (n.data.id :: seen)]
        constructor
        · rintro (rfl | ⟨hm, hs⟩)
          · exact ⟨Or.inl rfl, hc⟩
          · exact ⟨Or.inr hm, fun hx => hs (Or.inr hx)⟩
        · rintro ⟨rfl | hm, hs⟩
          · exact Or.inl rfl
          · by_cases hx : x = n.data.id
            · exact Or.inl hx
            · exact Or.inr ⟨hm, fun hmm => hmm.elim hx hs⟩

theorem dedup_count_le (x : Nat) (l : List Node) :
    ((dedupById l).map fun n => n.data.id).count x
      ≤ (l.map fun n => n.data.id).count x :=
  dedupAux_count_le x l []

theorem dedup_mem (x : Nat) (l : List Node) :
    (x ∈ (dedupById l).map fun n => n.data.id)
      ↔ (x ∈ l.map fun n => n.data.id) := by
  rw [dedupById, dedupAux_mem x l []]
  simp

theorem flush_current (st : PlanState) : (flushVector st).current = [] := by
  unfold flushVector
  split
  · next h => exact List.isEmpty_iff.mp h
  · rfl

theorem flush_count (x : Nat) (st : PlanState) :
    (stIds (flushVector st)).count x ≤ (stIds st).count x := by
  unfold flushVector
  split
  · exact le_refl _
  · simp only [stIds, List.flatMap_append, List.count_append, List.flatMap_cons,
      List.flatMap_nil, List.append_nil, List.map_nil, List.count_nil]
    have hd : (segIdsOf { type := "vector", nodes := dedupById st.current }).count x
        ≤ (st.current.map fun n => n.data.id).count x := by
      rw [segIdsOf]
      exact dedup_count_le x st.current
    omega

theorem flush_mem (x : Nat) (st : PlanState) :
    x ∈ stIds (flushVector st) ↔ x ∈ stIds st := by
  unfold flushVector
  split
  · exact Iff.rfl
  · simp only [stIds, List.flatMap_append, List.mem_append, List.flatMap_cons,
      List.flatMap_nil, List.append_nil, List.map_nil, List.not_mem_nil, or_false]
    have hd : x ∈ segIdsOf { type := "vector", nodes := dedupById st.current }
        ↔ x ∈ st.current.map fun n => n.data.id := by
      rw [segIdsOf]
      exact dedup_mem x st.current
    rw [hd]

theorem stIds_flush (st : PlanState) :
    stIds (flushVector st) = (flushVector st).segments.flatMap segIdsOf := by
  rw [stIds, flush_current]
  simp

theorem visitNode_eq (st : PlanState) (d : NodeData) (cs : List Node) :
    visitNode st (.mk d cs)
      = (if d.visible = false then st
         else if nodeNeedsRaster d then
           { segments := (flushVector st).segments ++
               [{ type := "raster", nodes := collectSubtreeNodes (.mk d cs) }],
             current := (flushVector st).current }
         else
           visitList (if nodeHasRenderableSelf d
             then { st with current := st.current ++ [Node.mk d cs] } else st) cs) := rfl

theorem visitList_cons_eq (st : PlanState) (c : Node) (cs : List Node) :
    visitList st (c :: cs) = visitList (visitNode st c) cs := rfl

theorem plannedNodeIds_eq (d : NodeData) (cs : List Node) :
    plannedNodeIds (.mk d cs)
      = (if d.visible = false then []
         else if nodeNeedsRaster d then subtreeIds (.mk d cs)
         else (if nodeHasRenderableSelf d then [d.id] else []) ++ plannedListIds cs) := rfl

theorem stIds_raster (st : PlanState) (d : NodeData) (cs : List Node) :
    stIds { segments := (flushVector st).segments ++
              [{ type := "raster", nodes := collectSubtreeNodes (.mk d cs) }],
            current := (flushVector st).current }
      = stIds (flushVector st) ++ subtreeIds (.mk d cs) := by
  rw [stIds, stIds_flush, flush_current]
  simp only [List.flatMap_append, List.flatMap_cons, List.flatMap_nil,
    List.append_nil, List.map_nil]
  rfl

theorem stIds_push (st : PlanState) (n : Node) :
    stIds { st with current := st.current ++ [n] } = stIds st ++ [n.data.id] := by
  simp [stIds]

mutual
theorem visitNode_spec : ∀ (n : Node) (st : PlanState) (x : Nat),
    ((stIds (visitNode st n)).count x
        ≤ (stIds st).count x + (plannedNodeIds n).count x)
    ∧ (x ∈ stIds (visitNode st n) ↔ (x ∈ stIds st ∨ x ∈ plannedNodeIds n))
  | .mk d cs, st, x => by
      rw [visitNode_eq, plannedNodeIds_eq]
      by_cases hvis : d.visible = false
      · rw [if_pos hvis, if_pos hvis]
        constructor
        · simp
        · simp
      · rw [if_neg hvis, if_neg hvis]
        by_cases hr : nodeNeedsRaster d
        · rw [if_pos hr, if_pos hr, stIds_raster]
          constructor
          · simp only [List.count_append]
            have := flush_count x st
            omega
          · simp only [List.mem_append, flush_mem]
        · rw [if_neg hr, if_neg hr]
          by_cases hren : nodeHasRenderableSelf d
          · rw [if_pos hren, if_pos hren]
            have hrec := visitList_spec cs { st with current := st.current ++ [Node.mk d cs] } x
            rw [stIds_push] at hrec
            constructor
            · have h1 := hrec.1
              simp only [List.count_append] at h1 ⊢
              have hid : (Node.mk d cs).data.id = d.id := rfl
              rw [hid] at h1
              omega
            · rw [hrec.2]
              simp only [List.mem_append]
              have hid : (Node.mk d cs).data.id = d.id := rfl
              rw [hid]
              tauto
          · rw [if_neg hren, if_neg hren]
            have hrec := visitList_spec cs st x
            constructor
            · have h1 := hrec.1
              simp only [List.nil_append]
              exact h1
            · rw [hrec.2]
              simp only [List.nil_append]
theorem visitList_spec : ∀ (ns : List Node) (st : PlanState) (x : Nat),
    ((stIds (visitList st ns)).count x
        ≤ (stIds st).count x + (plannedListIds ns).count x)
    ∧ (x ∈ stIds (visitList st ns) ↔ (x ∈ stIds st ∨ x ∈ plannedListIds ns))
  | [], st, x => by
      constructor
      · show (stIds st).count x ≤ (stIds st).count x + (plannedListIds []).count x
        simp [plannedListIds]
      · show x ∈ stIds st ↔ (x ∈ stIds st ∨ x ∈ plannedListIds [])
        simp [plannedListIds]
  | c :: cs, st, x => by
      rw [visitList_cons_eq]
      have h1 := visitNode_spec c st x
      have h2 := visitList_spec cs (visitNode st c) x
      have hpl : plannedListIds (c :: cs) = plannedNodeIds c ++ plannedListIds cs := rfl
      rw [hpl]
      constructor
      · have := h1.1
        have := h2.1
        simp only [List.count_append]
        omega
      · rw [h2.2, h1.2]
        simp only [List.mem_append]
        tauto
end

mutual
theorem plannedNodeIds_count_le : ∀ (n : Node) (x : Nat),
    (plannedNodeIds n).count x ≤ (subtreeIds n).count x
  | .mk d cs, x => by
      rw [plannedNodeIds_eq]
      have hsub : subtreeIds (.mk d cs)
          = d.id :: ((collectSubtreeList cs).map fun n => n.data.id) := rfl
      by_cases hvis : d.visible = false
      · rw [if_pos hvis]; simp
      · rw [if_neg hvis]
        by_cases hr : nodeNeedsRaster d
        · rw [if_pos hr]
        · rw [if_neg hr]
          have hrec := plannedListIds_count_le cs x
          rw [hsub]
          by_cases hren : nodeHasRenderableSelf d
          · rw [if_pos hren]
            simp only [List.count_append, List.count_cons, List.count_nil]
            generalize (if (d.id == x) = true then 1 else 0) = I
            omega
          · rw [if_neg hren]
            simp only [List.nil_append, List.count_cons]
            generalize (if (d.id == x) = true then 1 else 0) = I
            omega
theorem plannedListIds_count_le : ∀ (cs : List Node) (x : Nat),
    (plannedListIds cs).count x
      ≤ ((collectSubtreeList cs).map fun n => n.data.id).count x
  | [], x => by simp [plannedListIds, collectSubtreeList]
  | c :: cs, x => by
      have h1 := plannedNodeIds_count_le c x
      have h2 := plannedListIds_count_le cs x
      have e1 : plannedListIds (c :: cs) = plannedNodeIds c ++ plannedListIds cs := rfl
      have e2 : collectSubtreeList (c :: cs)
          = collectSubtreeNodes c ++ collectSubtreeList cs := rfl
      rw [e1, e2]
      simp only [List.map_append, List.count_append]
      have e3 : subtreeIds c = (collectSubtreeNodes c).map fun n => n.data.id := rfl
      rw [e3] at h1
      omega
end

theorem plannedFrameIds_count_le (frame : Node) (x : Nat) :
    (plannedFrameIds frame).count x ≤ (subtreeIds frame).count x := by
  obtain ⟨d, cs⟩ := frame
  have h := plannedListIds_count_le cs x
  have hsub : subtreeIds (.mk d cs)
      = d.id :: ((collectSubtreeList cs).map fun n => n.data.id) := rfl
  have hpl : plannedFrameIds (.mk d cs) = plannedListIds cs := rfl
  rw [hpl, hsub]
  simp only [List.count_cons]
  generalize (if (d.id == x) = true then 1 else 0) = I
  omega

theorem segConcat_eq (frame : Node) :
    (buildFrameSegments frame).flatMap segIdsOf
      = stIds (flushVector (visitList { segments := [], current := [] } frame.children)) := by
  rw [buildFrameSegments, stIds_flush]

theorem segConcat_count_le (frame : Node) (x : Nat) :
    ((buildFrameSegments frame).flatMap segIdsOf).count x
      ≤ (plannedFrameIds frame).count x := by
  rw [segConcat_eq]
  have h1 := (visitList_spec frame.children { segments := [], current := [] } x).1
  have h2 := flush_count x (visitList { segments := [], current := [] } frame.children)
  have hinit : stIds { segments := [], current := [] } = [] := rfl
  rw [hinit] at h1
  have hpl : plannedFrameIds frame = plannedListIds frame.children := rfl
  rw [hpl]
  simp only [List.count_nil] at h1
  omega

theorem segConcat_mem (frame : Node) (x : Nat) :
    x ∈ (buildFrameSegments frame).flatMap segIdsOf ↔ x ∈ plannedFrameIds frame := by
  rw [segConcat_eq]
  rw [flush_mem]
  rw [(visitList_spec frame.children { segments := [], current := [] } x).2]
  have hinit : stIds { segments := [], current := [] } = [] := rfl
  rw [hinit]
  have hpl : plannedFrameIds frame = plannedListIds frame.children := rfl
  rw [hpl]
  simp

theorem pairwise_of_flat_count (segs : List Segment)
    (h : ∀ x, (segs.flatMap segIdsOf).count x ≤ 1) :
    List.Pairwise (fun s t => ∀ x, x ∈ segIdsOf s → x ∉ segIdsOf t) segs := by
  induction segs with
  | nil => exact List.Pairwise.nil
  | cons s rest ih =>
      constructor
      · intro t ht x hxs hxt
        have hc := h x
        have e : ((s :: rest).flatMap segIdsOf) = segIdsOf s ++ rest.flatMap segIdsOf := rfl
        rw [e, List.count_append] at hc
        have h1 : 0 < (segIdsOf s).count x := List.count_pos_iff.mpr hxs
        have h2 : 0 < (rest.flatMap segIdsOf).count x :=
          List.count_pos_iff.mpr (List.mem_flatMap.mpr ⟨t, ht, hxt⟩)
        omega
      · apply ih
        intro x
        have hc := h x
        have e : ((s :: rest).flatMap segIdsOf) = segIdsOf s ++ rest.flatMap segIdsOf := rfl
        rw [e, List.count_append] at hc
        omega

/-- C4: for every frame whose subtree carries distinct ids, the segments
produced by `buildFrameSegments`, concatenated in order, contain every id
at most once (in particular each visible renderable-self node appears at
most once overall), contain every id reachable by the planning traversal
(`plannedFrameIds`) exactly once, and no id appears in the node sets of two
different segments. -/
theorem claim_C4 (frame : Node) (hnodup : (subtreeIds frame).Nodup) :
    (∀ x, ((buildFrameSegments frame).flatMap segIdsOf).count x ≤ 1)
    ∧ (∀ x ∈ plannedFrameIds frame,
        ((buildFrameSegments frame).flatMap segIdsOf).count x = 1)
    ∧ List.Pairwise (fun s t => ∀ x, x ∈ segIdsOf s → x ∉ segIdsOf t)
        (buildFrameSegments frame) := by
  have hone : ∀ x, ((buildFrameSegments frame).flatMap segIdsOf).count x ≤ 1 := by
    intro x
    have h1 := segConcat_count_le frame x
    have h2 := plannedFrameIds_count_le frame x
    have h3 := List.nodup_iff_count_le_one.mp hnodup x
    omega
  refine ⟨hone, ?_, pairwise_of_flat_count _ hone⟩
  intro x hx
  have hmem : x ∈ (buildFrameSegments frame).flatMap segIdsOf :=
    (segConcat_mem frame x).mpr hx
  have hpos : 0 < ((buildFrameSegments frame).flatMap segIdsOf).count x :=
    List.count_pos_iff.mpr hmem
  have := hone x
  omega

/-- C4 (witness): the coverage property applied to a concrete frame with a
raster subtree, an invisible node and a plain vector node. -/
theorem claim_C4_witness :
    (∀ x, ((buildFrameSegments c4Frame).flatMap segIdsOf).count x ≤ 1)
    ∧ (∀ x ∈ plannedFrameIds c4Frame,
        ((buildFrameSegments c4Frame).flatMap segIdsOf).count x = 1)
    ∧ List.Pairwise (fun s t => ∀ x, x ∈ segIdsOf s → x ∉ segIdsOf t)
        (buildFrameSegments c4Frame) :=
  claim_C4 c4Frame (by decide)

theorem collectSubtreeList_append (a b : List Node) :
    collectSubtreeList (a ++ b) = collectSubtreeList a ++ collectSubtreeList b := by
  induction a with
  | nil => rfl
  | cons c cs ih =>
      show collectSubtreeList (c :: (cs ++ b))
        = collectSubtreeList (c :: cs) ++ collectSubtreeList b
      have e : ∀ l, collectSubtreeList (c :: l)
          = collectSubtreeNodes c ++ collectSubtreeList l := fun _ => rfl
      rw [e, e, ih, List.append_assoc]

theorem collectSubtreeLoop_eq (stack acc : List Node) :
    collectSubtreeLoop stack acc = acc.reverse ++ collectSubtreeList stack := by
  induction stack, acc using collectSubtreeLoop.induct with
  | case1 acc => simp [collectSubtreeLoop, collectSubtreeList]
  | case2 acc d cs rest ih =>
      rw [collectSubtreeLoop, ih, collectSubtreeList_append]
      have e : collectSubtreeList (Node.mk d cs :: rest)
          = collectSubtreeNodes (Node.mk d cs) ++ collectSubtreeList rest := rfl
      rw [e]
      have e2 : collectSubtreeNodes (Node.mk d cs)
          = Node.mk d cs :: collectSubtreeList cs := rfl
      rw [e2]
      simp

theorem collectSubtreeNodes_eq_loop (n : Node) :
    collectSubtreeLoop [n] [] = collectSubtreeNodes n := by
  rw [collectSubtreeLoop_eq]
  show collectSubtreeList [n] = collectSubtreeNodes n
  have e : collectSubtreeList [n] = collectSubtreeNodes n ++ collectSubtreeList [] := rfl
  rw [e]
  simp [collectSubtreeList]
